import Mathlib

/-!
Verification of the structural-analysis engine of the Critter-Castle designer
(`designer/js/structuralAnalysis.js`).

The JavaScript engine is shallowly embedded here.  Modelling conventions:

* JavaScript numbers are modelled by exact rationals (`ℚ`).  `Math.PI` is the
  IEEE-754 double closest to π, which is exactly `884279719003555 / 2^48`; it
  is embedded as that rational (`piJS`).
* `Math.round x` is `⌊x + 1/2⌋` (round half toward +∞), embedded as `jsRound`.
* Pieces are records; optional `variantId` is an `Option String`
  (`p.variantId?.includes(...)` is falsy when the field is `undefined`).
* The nested `forEach` loops of `analyzeSupportStructure` push, for a fixed
  node, one entry per matching partner in list order; they are embedded as
  order-preserving `filter`/`map` comprehensions over the piece list.
* The `while` loop of `calculateLoadDistribution` is embedded as a
  fuel-indexed step function; the fuel `(length + 1)^2` dominates the loop's
  potential (queue length plus, per unprocessed node, one dequeue plus its
  future enqueues), so the embedded loop provably drains its queue exactly
  like the source loop does.
-/

namespace CritterCastle

/-- A placed piece, as consumed by the engine (`x`/`z` are footprint center,
`y` is the elevation of the bottom face). -/
structure Piece where
  id : String
  name : String
  x : ℚ
  y : ℚ
  z : ℚ
  width : ℚ
  height : ℚ
  depth : ℚ
  hollow : Bool
  shape : String
  material : String
  variantId : Option String
deriving DecidableEq, Inhabited

/-- One row of the `materialStrength` table. -/
structure MaterialProfile where
  baseCapacity : ℚ
  tensileStrength : ℚ
  shearStrength : ℚ
  density : ℚ
  jointEfficiency : ℚ
deriving DecidableEq

/-- `StructuralAnalysis.materialStrength[m] || materialStrength.wood`:
lookup of a material profile with silent fallback to wood. -/
def materialStrength (m : String) : MaterialProfile :=
  if m = "wood" then
    { baseCapacity := 150, tensileStrength := 100, shearStrength := 80
      density := 1/40, jointEfficiency := 9/10 }
  else if m = "fabric" then
    { baseCapacity := 30, tensileStrength := 20, shearStrength := 10
      density := 1/200, jointEfficiency := 3/10 }
  else if m = "sisal" then
    { baseCapacity := 60, tensileStrength := 50, shearStrength := 30
      density := 3/200, jointEfficiency := 1/2 }
  else if m = "carpet" then
    { baseCapacity := 40, tensileStrength := 25, shearStrength := 15
      density := 1/125, jointEfficiency := 2/5 }
  else if m = "cushion" then
    { baseCapacity := 20, tensileStrength := 10, shearStrength := 5
      density := 3/1000, jointEfficiency := 1/5 }
  else
    { baseCapacity := 150, tensileStrength := 100, shearStrength := 80
      density := 1/40, jointEfficiency := 9/10 }

/-- The exact rational value of the IEEE-754 double `Math.PI`. -/
def piJS : ℚ := 884279719003555 / 281474976710656

/-- JavaScript `Math.round`: round half toward positive infinity. -/
def jsRound (q : ℚ) : ℤ := ⌊q + 1/2⌋

/-- `Math.round (q * 10) / 10`: round to one decimal place. -/
def round10 (q : ℚ) : ℚ := (jsRound (q * 10) : ℚ) / 10

/-- Wall thickness estimate used for hollow pieces (0.75 inch). -/
def wallThickness : ℚ := 3/4

/-- The `volume` computed inside `calculatePieceWeight`: hollow pieces use
outer box volume minus the (0-floored) inner box volume; solid pieces use the
cylinder formula when `shape === 'cylinder'` and the box formula otherwise. -/
def calcVolume (piece : Piece) : ℚ :=
  if piece.hollow then
    piece.width * piece.height * piece.depth -
      max 0 ((piece.width - 2 * wallThickness) *
             (piece.height - 2 * wallThickness) *
             (piece.depth - 2 * wallThickness))
  else if piece.shape = "cylinder" then
    piJS * (piece.width / 2) ^ 2 * piece.height
  else
    piece.width * piece.height * piece.depth

/-- `calculatePieceWeight`: `Math.round(volume * material.density * 10) / 10`. -/
def calculatePieceWeight (piece : Piece) : ℚ :=
  round10 (calcVolume piece * (materialStrength piece.material).density)

/-- `calculateOverlap`: clamped 1-D interval overlap. -/
def calculateOverlap (min1 max1 min2 max2 : ℚ) : ℚ :=
  max 0 (min max1 max2 - max min1 min2)

/-- `isSupporting(lowerPiece, upperPiece)`: vertical adjacency within 1 inch
and at least 2 inches of overlap in both X and Z. -/
def isSupporting (lowerPiece upperPiece : Piece) : Bool :=
  let lowerTop := lowerPiece.y + lowerPiece.height
  let upperBottom := upperPiece.y
  if 1 < |lowerTop - upperBottom| then false
  else
    let overlapX := calculateOverlap
      (lowerPiece.x - lowerPiece.width / 2) (lowerPiece.x + lowerPiece.width / 2)
      (upperPiece.x - upperPiece.width / 2) (upperPiece.x + upperPiece.width / 2)
    let overlapZ := calculateOverlap
      (lowerPiece.z - lowerPiece.depth / 2) (lowerPiece.z + lowerPiece.depth / 2)
      (upperPiece.z - upperPiece.depth / 2) (upperPiece.z + upperPiece.depth / 2)
    decide (2 ≤ overlapX) && decide (2 ≤ overlapZ)

/-- `suggestConnection(overlapArea, upperPiece)`: tiered hardware choice from
overlap area and the upper piece's own weight. -/
def suggestConnection (overlapArea : ℚ) (upperPiece : Piece) : String :=
  let weight := calculatePieceWeight upperPiece
  if overlapArea < 4 then
    if 20 < weight then "metal_plate" else "brackets_heavy"
  else if overlapArea < 16 then
    if 15 < weight then "brackets_heavy" else "brackets_light"
  else
    if 10 < weight then "glue_and_screws" else "screws"

/-- A contact record produced by `calculateConnectionPoint`. -/
structure Connection where
  x : ℚ
  y : ℚ
  z : ℚ
  area : ℚ
  upperPieceId : String
  lowerPieceId : String
  suggestedConnection : String
deriving DecidableEq

/-- `calculateConnectionPoint(lowerPiece, upperPiece)`. -/
def calculateConnectionPoint (lowerPiece upperPiece : Piece) : Connection :=
  let overlapCenterX :=
    (max (lowerPiece.x - lowerPiece.width / 2) (upperPiece.x - upperPiece.width / 2) +
     min (lowerPiece.x + lowerPiece.width / 2) (upperPiece.x + upperPiece.width / 2)) / 2
  let overlapCenterZ :=
    (max (lowerPiece.z - lowerPiece.depth / 2) (upperPiece.z - upperPiece.depth / 2) +
     min (lowerPiece.z + lowerPiece.depth / 2) (upperPiece.z + upperPiece.depth / 2)) / 2
  let overlapArea :=
    calculateOverlap
      (lowerPiece.x - lowerPiece.width / 2) (lowerPiece.x + lowerPiece.width / 2)
      (upperPiece.x - upperPiece.width / 2) (upperPiece.x + upperPiece.width / 2) *
    calculateOverlap
      (lowerPiece.z - lowerPiece.depth / 2) (lowerPiece.z + lowerPiece.depth / 2)
      (upperPiece.z - upperPiece.depth / 2) (upperPiece.z + upperPiece.depth / 2)
  { x := overlapCenterX
    y := lowerPiece.y + lowerPiece.height
    z := overlapCenterZ
    area := overlapArea
    upperPieceId := upperPiece.id
    lowerPieceId := lowerPiece.id
    suggestedConnection := suggestConnection overlapArea upperPiece }

/-- The ids pushed into `supportMap[p.id].supporting` by the nested loops of
`analyzeSupportStructure`: the outer loop visits each candidate upper piece in
list order, so node `p` receives exactly the uppers `u` with `u.id ≠ p.id` and
`isSupporting p u`, in list order. -/
def supportingIds (pieces : List Piece) (p : Piece) : List String :=
  ((pieces.filter fun u => decide (u.id ≠ p.id) && isSupporting p u).map fun u => u.id)

/-- The ids pushed into `supportMap[p.id].supportedBy`: the inner loop visits
each candidate lower piece in list order during the single outer visit of `p`. -/
def supportedByIds (pieces : List Piece) (p : Piece) : List String :=
  ((pieces.filter fun l => decide (l.id ≠ p.id) && isSupporting l p).map fun l => l.id)

/-- The contact records pushed into `supportMap[p.id].connections`, one per
supported upper piece, in the same order as `supportingIds`. -/
def connectionsOf (pieces : List Piece) (p : Piece) : List Connection :=
  ((pieces.filter fun u => decide (u.id ≠ p.id) && isSupporting p u).map
    fun u => calculateConnectionPoint p u)

/-- List of all piece ids, in list order (the key order of `supportMap`). -/
def validIds (pieces : List Piece) : List String := pieces.map fun p => p.id

/-- Lookup of the piece behind a `supportMap` key (`supportMap[pieceId].piece`). -/
def findPieceById (pieces : List Piece) (i : String) : Option Piece :=
  pieces.find? fun p => p.id = i

/-- `supporting` array of the node keyed by id `i`. -/
def supIdsOf (pieces : List Piece) (i : String) : List String :=
  match findPieceById pieces i with
  | some p => supportingIds pieces p
  | none => []

/-- `supportedBy` array of the node keyed by id `i`. -/
def supByOf (pieces : List Piece) (i : String) : List String :=
  match findPieceById pieces i with
  | some p => supportedByIds pieces p
  | none => []

/-- Calculated weight of the piece keyed by id `i`. -/
def weightOf (pieces : List Piece) (i : String) : ℚ :=
  match findPieceById pieces i with
  | some p => calculatePieceWeight p
  | none => 0

/-- The `totalLoad`/`stressLevel` fields of the nodes are a key-value store
keyed by piece id; it is modelled as an association list where the most
recent write shadows older entries and absent keys hold the initial value 0
(every node's `totalLoad` and `stressLevel` start at 0). -/
def alookup (l : List (String × ℚ)) (i : String) : ℚ :=
  ((l.find? fun e => e.1 = i).map fun e => e.2).getD 0

/-- Mutable state of the `calculateLoadDistribution` while-loop: the
processing queue, the `processed` set (kept here as a list in processing
order, most recently processed first), and the `totalLoad`/`stressLevel`
stores of the nodes (see `alookup`). -/
structure LoadState where
  queue : List String
  processed : List String
  loads : List (String × ℚ)
  stress : List (String × ℚ)
deriving DecidableEq

/-- One iteration of the while-loop body of `calculateLoadDistribution`.
A dequeued id that is already processed is skipped.  Otherwise the node's
`totalLoad` is its own weight plus the current `totalLoad` of everything in
its `supporting` array (`(supportMap[id].totalLoad || 0)`; every node's
`totalLoad` is initialized to 0, so the `|| 0` is the identity here), its
`stressLevel` is `min 1 (totalLoad / (baseCapacity * width * depth))`, it is
marked processed, and its not-yet-processed supporters are enqueued.
The source never dequeues an id without a node (`supportMap[id]` would
throw); that branch is unreachable because the queue only ever holds piece
ids, and is modelled as a skip. -/
def loadStep (pieces : List Piece) (st : LoadState) : LoadState :=
  match st.queue with
  | [] => st
  | pieceId :: rest =>
    if pieceId ∈ st.processed then { st with queue := rest }
    else
      match findPieceById pieces pieceId with
      | none => { st with queue := rest }
      | some piece =>
        let pieceWeight := calculatePieceWeight piece
        let supportedWeight := ((supportingIds pieces piece).map (alookup st.loads)).sum
        let totalLoad := pieceWeight + supportedWeight
        let contactArea := piece.width * piece.depth
        let maxCapacity := (materialStrength piece.material).baseCapacity * contactArea
        let stressLevel := min 1 (totalLoad / maxCapacity)
        let processed2 := pieceId :: st.processed
        let enqueued := (supportedByIds pieces piece).filter fun s => decide (s ∉ processed2)
        { queue := rest ++ enqueued
          processed := processed2
          loads := (pieceId, totalLoad) :: st.loads
          stress := (pieceId, stressLevel) :: st.stress }

/-- The while-loop of `calculateLoadDistribution`, run with explicit fuel;
it stops as soon as the queue is empty, exactly like the source loop. -/
def loadLoop (pieces : List Piece) : Nat → LoadState → LoadState
  | 0, st => st
  | Nat.succ n, st =>
    if st.queue = [] then st else loadLoop pieces n (loadStep pieces st)

/-- The initial state of the loop: the queue is seeded with every node whose
`supporting` array is empty (top-level pieces), in `supportMap` key order. -/
def initLoadState (pieces : List Piece) : LoadState :=
  { queue := ((pieces.filter fun p => decide (supportingIds pieces p = [])).map fun p => p.id)
    processed := []
    loads := []
    stress := [] }

/-- Fuel that provably dominates the loop's step count (see `phi` below). -/
def loadFuel (pieces : List Piece) : Nat :=
  (pieces.length + 1) * (pieces.length + 1)

/-- `calculateLoadDistribution(supportMap, pieces)`: the final loop state. -/
def calculateLoadDistribution (pieces : List Piece) : LoadState :=
  loadLoop pieces (loadFuel pieces) (initLoadState pieces)

/-- A node of the support map, after `analyzeSupportStructure` completes. -/
structure Node where
  piece : Piece
  supporting : List String
  supportedBy : List String
  connections : List Connection
  totalLoad : ℚ
  stressLevel : ℚ
deriving DecidableEq, Inhabited

/-- `analyzeSupportStructure(pieces)`: one node per piece (in `supportMap`
key order), with relations from the pairwise geometric pass and
`totalLoad`/`stressLevel` from `calculateLoadDistribution`. -/
def analyzeSupportStructure (pieces : List Piece) : List Node :=
  let st := calculateLoadDistribution pieces
  pieces.map fun p =>
    { piece := p
      supporting := supportingIds pieces p
      supportedBy := supportedByIds pieces p
      connections := connectionsOf pieces p
      totalLoad := alookup st.loads p.id
      stressLevel := alookup st.stress p.id }

/-- `supportMap[i]`: lookup of a node by piece id. -/
def nodeOf (m : List Node) (i : String) : Option Node :=
  m.find? fun n => n.piece.id = i

/-- Contiguous-substring test on character lists (JavaScript
`String.prototype.includes`). -/
def charListIncludes (pat : List Char) : List Char → Bool
  | [] => pat.isEmpty
  | c :: rest => pat.isPrefixOf (c :: rest) || charListIncludes pat rest

/-- `s.includes(pat)` for strings. -/
def strIncludes (s pat : String) : Bool := charListIncludes pat.data s.data

/-- The resting-spot filter of `testCatWeights`:
`p.variantId?.includes('platform') || ...includes('perch') || ...includes('house')`
(falsy when `variantId` is absent). -/
def isRestingSpot (p : Piece) : Bool :=
  match p.variantId with
  | none => false
  | some v => strIncludes v "platform" || strIncludes v "perch" || strIncludes v "house"

/-- The candidate resting surfaces, in list order. -/
def restingSpots (pieces : List Piece) : List Piece :=
  pieces.filter fun p => isRestingSpot p

/-- `Math.max(...list)` for a nonempty list (the empty case yields
`-Infinity` in JavaScript and is outside this model; see spec §7). -/
def listMax : List ℚ → ℚ
  | [] => 0
  | x :: xs => xs.foldl max x

/-- `spotCapacity = material.baseCapacity * (spot.width * spot.depth)`. -/
def spotCapacity (s : Piece) : ℚ :=
  (materialStrength s.material).baseCapacity * (s.width * s.depth)

/-- `supportMap[spot.id].totalLoad` (defined only when the node exists, as it
always does for the map built by `analyzeSupportStructure`). -/
def spotLoad (m : List Node) (s : Piece) : ℚ :=
  ((nodeOf m s.id).map fun n => n.totalLoad).getD 0

/-- An entry of `results.weakPoints`.  The `issue` message template
"`Cannot safely support ${maxSingleCat}lb cat`" is modelled by the number it
interpolates (`issueCatWeight`). -/
structure WeakPoint where
  pieceId : String
  pieceName : String
  issueCatWeight : ℚ
  currentCapacity : ℤ
  required : ℚ
deriving DecidableEq

/-- An entry of `results.catDistribution`. -/
structure CatSpot where
  name : String
  currentLoad : ℚ
  capacity : ℚ
  canHoldCat : Bool
  maxCatWeight : ℚ
deriving DecidableEq

/-- An entry of `results.recommendations`.  The two suggestion message
variants are modelled by the `critical` flag (`stressLevel > 0.75`); the
prepended overall entry has `pieceId = none` and `stress = 100`. -/
structure Recommendation where
  pieceId : Option String
  pieceName : String
  stress : ℤ
  critical : Bool
deriving DecidableEq

/-- The result object of `testCatWeights`. -/
structure TestResults where
  passed : Bool
  totalCapacity : ℚ
  weakPoints : List WeakPoint
  recommendations : List Recommendation
  safetyFactor : ℚ
  catDistribution : List (String × CatSpot)
deriving DecidableEq

/-- `testCatWeights(pieces, catWeights, supportMap)`.  The `forEach` over
resting spots is embedded as order-preserving comprehensions: `passed` ends
up false iff some spot's `totalLoadWithCat` strictly exceeds
`spotCapacity / safetyFactor`; exactly those spots contribute weak points;
every spot contributes a `catDistribution` entry and its capacity to
`totalCapacity`.  Stress recommendations scan every node of the map in key
order; the overall recommendation is prepended (`unshift`) iff the test
failed. -/
def testCatWeights (pieces : List Piece) (catWeights : List ℚ) (supportMap : List Node) :
    TestResults :=
  let maxSingleCat := listMax catWeights
  let safetyFactor : ℚ := 2
  let spots := restingSpots pieces
  let weakPoints := spots.filterMap fun s =>
    if spotCapacity s / safetyFactor < spotLoad supportMap s + maxSingleCat then
      some { pieceId := s.id
             pieceName := s.name
             issueCatWeight := maxSingleCat
             currentCapacity := jsRound (spotCapacity s / safetyFactor - spotLoad supportMap s)
             required := maxSingleCat }
    else none
  let stressRecs := supportMap.filterMap fun n =>
    if (1 : ℚ)/2 < n.stressLevel then
      some { pieceId := some n.piece.id
             pieceName := n.piece.name
             stress := jsRound (n.stressLevel * 100)
             critical := decide ((3 : ℚ)/4 < n.stressLevel) }
    else none
  let passed := spots.all fun s =>
    !(decide (spotCapacity s / safetyFactor < spotLoad supportMap s + maxSingleCat))
  { passed := passed
    totalCapacity := (spots.map fun s => spotCapacity s).sum
    weakPoints := weakPoints
    recommendations :=
      if passed then stressRecs
      else { pieceId := none, pieceName := "Overall Design", stress := 100, critical := true }
        :: stressRecs
    safetyFactor := safetyFactor
    catDistribution := spots.map fun s =>
      (s.id,
        { name := s.name
          currentLoad := spotLoad supportMap s
          capacity := spotCapacity s
          canHoldCat := decide (spotLoad supportMap s + maxSingleCat < spotCapacity s / safetyFactor)
          maxCatWeight := max 0 (spotCapacity s / safetyFactor - spotLoad supportMap s) }) }

/-! ### Loop invariants and termination potential for `calculateLoadDistribution` -/

/-- Every id in the queue is the id of some piece (always true: the queue is
seeded with piece ids and only ever extended with `supportedBy` entries). -/
def QueueValid (pieces : List Piece) (st : LoadState) : Prop :=
  ∀ i ∈ st.queue, ∃ p ∈ pieces, p.id = i

/-- The running invariant of the load-distribution loop: queue ids are piece
ids, the processed list is duplicate-free, unprocessed nodes still carry the
initial `totalLoad = 0`, each processed node's `totalLoad` equals its own
weight plus the current `totalLoad` of those of its `supporting` entries that
were processed before it (the entries listed after it in the processed list),
and each processed node's supporters are all processed or enqueued. -/
def LoadInv (pieces : List Piece) (st : LoadState) : Prop :=
  QueueValid pieces st ∧
  st.processed.Nodup ∧
  (∀ i, i ∉ st.processed → alookup st.loads i = 0) ∧
  (∀ pre i suf, st.processed = pre ++ i :: suf →
    alookup st.loads i = weightOf pieces i +
      (((supIdsOf pieces i).filter fun s => decide (s ∈ suf)).map (alookup st.loads)).sum) ∧
  (∀ i ∈ st.processed, ∀ j ∈ supByOf pieces i, j ∈ st.processed ∨ j ∈ st.queue)

/-- Termination potential of the loop: the queue length plus, for every
not-yet-processed node, one (its own dequeue) plus the number of enqueues it
can still cause.  Strictly decreases on every iteration. -/
def phi (pieces : List Piece) (st : LoadState) : Nat :=
  st.queue.length +
    (((validIds pieces).filter fun i => decide (i ∉ st.processed)).map
      fun i => 1 + (supByOf pieces i).length).sum

/-! ### Concrete fixtures used by witnesses and counterexamples -/

/-- A solid wood box piece at a given position and size. -/
def mkBox (i : String) (x y z w h d : ℚ) : Piece :=
  { id := i, name := i, x := x, y := y, z := z, width := w, height := h, depth := d
    hollow := false, shape := "box", material := "wood", variantId := none }

/-- A wide wood base at ground level (for the load-order counterexample). -/
def pX : Piece := mkBox "x" 0 0 0 40 10 40

/-- A single box resting on `pX` (a one-piece stack). -/
def pY : Piece := mkBox "y" (-10) 10 0 10 5 10

/-- The lower box of a two-piece stack resting on `pX`. -/
def pZ : Piece := mkBox "z" 10 10 0 10 5 10

/-- The upper box of the two-piece stack (rests on `pZ`). -/
def pV : Piece := mkBox "v" 10 15 0 10 5 10

/-- Four solid wood boxes: the wide base `x` carrying a one-piece stack (`y`)
and a two-piece stack (`z` below `v`).  The support graph is acyclic, yet the
FIFO queue processes `x` before `z`. -/
def cx1ps : List Piece := [pX, pY, pZ, pV]

/-- A topological rank for `cx1ps` (supported pieces rank lower), witnessing
that its support graph is acyclic. -/
def cx1rank (i : String) : Nat :=
  if i = "y" then 0 else if i = "v" then 0 else if i = "z" then 1 else 2

/-- Two stacked 12×1×12 wood boxes (the spec's two-stacked-boxes scenario);
`stackBase` rests at ground level and carries `stackTop`. -/
def stackBase : Piece := mkBox "a" 0 0 0 12 1 12

/-- The upper of the two stacked boxes. -/
def stackTop : Piece := mkBox "b" 0 1 0 12 1 12

/-- The two stacked boxes as a piece list. -/
def stackPs : List Piece := [stackBase, stackTop]

/-- A rank function for `stackPs` witnessing acyclicity. -/
def stackRank (i : String) : Nat := if i = "b" then 0 else 1

/-- A hollow wood piece with two dimensions below twice the wall thickness:
its inner "volume" is a product of two negative factors and one large
positive factor, exceeds the outer volume, and drives the weight negative. -/
def hollowThin : Piece :=
  { id := "h", name := "h", x := 0, y := 0, z := 0, width := 1/10, height := 1/10
    depth := 100, hollow := true, shape := "box", material := "wood", variantId := none }

/-- A small hollow wood cube (all three dimensions below twice the wall
thickness, so its inner volume is floored to 0). -/
def hollowCube1 : Piece :=
  { id := "c1", name := "c1", x := 0, y := 0, z := 0, width := 1, height := 1
    depth := 1, hollow := true, shape := "box", material := "wood", variantId := none }

/-- A tall thin wood platform whose load sits exactly at the safety
threshold for a 74.5 lb cat: weight 0.5, capacity/2 = 75. -/
def platBoundary : Piece :=
  { id := "p1", name := "plat", x := 0, y := 0, z := 0, width := 1, height := 20
    depth := 1, hollow := false, shape := "box", material := "wood"
    variantId := some "platform_a" }

/-- The spec's capacity-pass scenario platform (wood, 24×0.75×16 at ground). -/
def platGood : Piece :=
  { id := "pg", name := "good", x := 0, y := 0, z := 0, width := 24, height := 3/4
    depth := 16, hollow := false, shape := "box", material := "wood"
    variantId := some "platform_main" }

/-- A small fabric bedding platform (capacity/2 = 60) carrying `bigBox`. -/
def fabSpot : Piece :=
  { id := "spot", name := "bed", x := 0, y := 0, z := 0, width := 2, height := 1
    depth := 2, hollow := false, shape := "box", material := "fabric"
    variantId := some "platform_bed" }

/-- A heavy (1200 lb) wood box resting on `fabSpot`. -/
def bigBox : Piece := mkBox "big" 0 1 0 40 30 40

/-- The fabric-spot-plus-heavy-box piece list. -/
def cx4ps : List Piece := [fabSpot, bigBox]

/-- A solid wood cylinder, 10 wide and 1.5 tall: its hollow twin is weighed
as a box (150 in³) and so outweighs the solid cylinder (≈117.8 in³). -/
def cylSolid : Piece :=
  { id := "cyl", name := "cyl", x := 0, y := 0, z := 0, width := 10, height := 3/2
    depth := 10, hollow := false, shape := "cylinder", material := "wood"
    variantId := none }

/-- A 1.6-inch wood cube: wall thickness 0.75 is below half its smallest
dimension, yet hollow and solid weights round to the same 0.1 lb. -/
def boxSixteen : Piece :=
  { id := "b16", name := "b16", x := 0, y := 0, z := 0, width := 8/5, height := 8/5
    depth := 8/5, hollow := false, shape := "box", material := "wood", variantId := none }

/-- A plain 2-inch wood cube. -/
def boxTwo : Piece := mkBox "b2" 0 0 0 2 2 2

/-! ### Arithmetic helper lemmas -/

theorem jsRound_nonneg {q : ℚ} (h : 0 ≤ q) : 0 ≤ jsRound q := by
  unfold jsRound
  exact Int.floor_nonneg.mpr (by linarith)

theorem jsRound_mono {q r : ℚ} (h : q ≤ r) : jsRound q ≤ jsRound r := by
  unfold jsRound
  exact Int.floor_le_floor (by linarith)

theorem round10_nonneg {q : ℚ} (h : 0 ≤ q) : 0 ≤ round10 q := by
  unfold round10
  have h1 : 0 ≤ jsRound (q * 10) := jsRound_nonneg (by nlinarith)
  have h2 : (0 : ℚ) ≤ (jsRound (q * 10) : ℚ) := by exact_mod_cast h1
  linarith

theorem round10_mono {q r : ℚ} (h : q ≤ r) : round10 q ≤ round10 r := by
  unfold round10
  have h1 : jsRound (q * 10) ≤ jsRound (r * 10) := jsRound_mono (by linarith)
  have h2 : ((jsRound (q * 10) : ℤ) : ℚ) ≤ ((jsRound (r * 10) : ℤ) : ℚ) := by exact_mod_cast h1
  linarith

theorem density_pos (m : String) : 0 < (materialStrength m).density := by
  unfold materialStrength
  split_ifs <;> norm_num

theorem baseCapacity_pos (m : String) : 0 < (materialStrength m).baseCapacity := by
  unfold materialStrength
  split_ifs <;> norm_num

theorem calculatePieceWeight_nonneg {p : Piece} (h : 0 ≤ calcVolume p) :
    0 ≤ calculatePieceWeight p := by
  unfold calculatePieceWeight
  exact round10_nonneg (mul_nonneg h (density_pos p.material).le)

/-! ### C9 — connection tiering -/

/-- C9: `suggestConnection` realizes exactly the tiered decision table of the
claim — metal plate for overlap < 4 in² and weight > 20 lb, heavy brackets
for (< 4 in², ≤ 20 lb) or (4–16 in², > 15 lb), light brackets for
(4–16 in², ≤ 15 lb), glue+screws for (≥ 16 in², > 10 lb), plain screws for
(≥ 16 in², ≤ 10 lb) — with the weight term being the supported (upper)
piece's own calculated weight. -/
theorem suggestConnection_tiers (a : ℚ) (u : Piece) :
    suggestConnection a u =
      (if a < 4 ∧ 20 < calculatePieceWeight u then "metal_plate"
       else if (a < 4 ∧ calculatePieceWeight u ≤ 20) ∨
               (4 ≤ a ∧ a < 16 ∧ 15 < calculatePieceWeight u) then "brackets_heavy"
       else if 4 ≤ a ∧ a < 16 ∧ calculatePieceWeight u ≤ 15 then "brackets_light"
       else if 16 ≤ a ∧ 10 < calculatePieceWeight u then "glue_and_screws"
       else "screws") := by
  unfold suggestConnection
  rcases lt_or_le a 4 with h4 | h4
  · rcases le_or_lt (calculatePieceWeight u) 20 with h20 | h20
    · rw [if_pos h4, if_neg (not_lt.mpr h20),
        if_neg (fun h => absurd h.2 (not_lt.mpr h20)),
        if_pos (Or.inl ⟨h4, h20⟩)]
    · rw [if_pos h4, if_pos h20, if_pos ⟨h4, h20⟩]
  · rcases lt_or_le a 16 with h16 | h16
    · rcases le_or_lt (calculatePieceWeight u) 15 with h15 | h15
      · rw [if_neg (not_lt.mpr h4), if_pos h16, if_neg (not_lt.mpr h15),
          if_neg (fun h => absurd h.1 (not_lt.mpr h4)),
          if_neg (fun h => h.elim (fun h1 => absurd h1.1 (not_lt.mpr h4))
            (fun h2 => absurd h2.2.2 (not_lt.mpr h15))),
          if_pos ⟨h4, h16, h15⟩]
      · rw [if_neg (not_lt.mpr h4), if_pos h16, if_pos h15,
          if_neg (fun h => absurd h.1 (not_lt.mpr h4)),
          if_pos (Or.inr ⟨h4, h16, h15⟩)]
    · rcases le_or_lt (calculatePieceWeight u) 10 with h10 | h10
      · rw [if_neg (not_lt.mpr h4), if_neg (not_lt.mpr h16), if_neg (not_lt.mpr h10),
          if_neg (fun h => absurd h.1 (not_lt.mpr h4)),
          if_neg (fun h => h.elim (fun h1 => absurd h1.1 (not_lt.mpr h4))
            (fun h2 => absurd h2.2.1 (not_lt.mpr h16))),
          if_neg (fun h => absurd h.2.1 (not_lt.mpr h16)),
          if_neg (fun h => absurd h.2 (not_lt.mpr h10))]
      · rw [if_neg (not_lt.mpr h4), if_neg (not_lt.mpr h16), if_pos h10,
          if_neg (fun h => absurd h.1 (not_lt.mpr h4)),
          if_neg (fun h => h.elim (fun h1 => absurd h1.1 (not_lt.mpr h4))
            (fun h2 => absurd h2.2.1 (not_lt.mpr h16))),
          if_neg (fun h => absurd h.2.1 (not_lt.mpr h16)),
          if_pos ⟨h16, h10⟩]

/-! ### C10 — hollow flag takes precedence over shape -/

/-- C10: for a hollow piece the weight is computed from the rectangular outer
volume regardless of `shape` (so a hollow "cylinder" is weighed as a box),
and the `π (width/2)² height` cylinder formula is applied only to solid
pieces. -/
theorem hollow_overrides_shape (p : Piece) (hp : p.hollow = true) (s : String) :
    calculatePieceWeight { p with shape := s } = calculatePieceWeight p ∧
    calcVolume p = p.width * p.height * p.depth -
      max 0 ((p.width - 2 * wallThickness) * (p.height - 2 * wallThickness) *
             (p.depth - 2 * wallThickness)) ∧
    (∀ q : Piece, q.hollow = false → q.shape = "cylinder" →
      calcVolume q = piJS * (q.width / 2) ^ 2 * q.height) := by
  refine ⟨?_, ?_, ?_⟩
  · unfold calculatePieceWeight calcVolume
    simp [hp]
  · unfold calcVolume
    simp [hp]
  · intro q hq hcyl
    unfold calcVolume
    simp [hq, hcyl]

/-- C10 witness: a hollow cylinder-tagged piece weighs the same as its
box-tagged twin. -/
theorem hollow_overrides_shape_witness :
    calculatePieceWeight { { cylSolid with hollow := true } with shape := "box" } =
      calculatePieceWeight { cylSolid with hollow := true } :=
  (hollow_overrides_shape { cylSolid with hollow := true } rfl "box").1

/-! ### C2 — hollow volume flooring -/

/-- C2 counterexample: `hollowThin` has positive dimensions (two of them
below twice the wall thickness), yet its computed volume and weight are
negative — the floor is applied to the inner product, which here is positive
(two negative factors) and larger than the outer volume. -/
theorem hollow_negative_weight_cx :
    0 < hollowThin.width ∧ 0 < hollowThin.height ∧ 0 < hollowThin.depth ∧
    hollowThin.hollow = true ∧
    calcVolume hollowThin < 0 ∧ calculatePieceWeight hollowThin < 0 := by
  refine ⟨by norm_num [hollowThin], by norm_num [hollowThin], by norm_num [hollowThin],
    rfl, ?_, ?_⟩ <;>
    norm_num [hollowThin, calcVolume, calculatePieceWeight, wallThickness, materialStrength,
      round10, jsRound]

/-- C2 (amended): for a hollow piece with positive dimensions, the computed
volume is the outer volume minus the 0-floored inner product (each dimension
reduced by twice the 0.75-inch wall thickness), and volume and weight are
nonnegative provided the number of dimensions smaller than twice the wall
thickness is not exactly two (with exactly two such dimensions the inner
product of two negative factors can exceed the outer volume). -/
theorem hollow_volume_nonneg (p : Piece) (hp : p.hollow = true)
    (hw : 0 < p.width) (hh : 0 < p.height) (hd : 0 < p.depth)
    (h2 : ((if p.width < 2 * wallThickness then 1 else 0) +
           (if p.height < 2 * wallThickness then 1 else 0) +
           (if p.depth < 2 * wallThickness then 1 else 0) : Nat) ≠ 2) :
    calcVolume p = p.width * p.height * p.depth -
      max 0 ((p.width - 2 * wallThickness) * (p.height - 2 * wallThickness) *
             (p.depth - 2 * wallThickness)) ∧
    0 ≤ calcVolume p ∧ 0 ≤ calculatePieceWeight p := by
  have hvol : calcVolume p = p.width * p.height * p.depth -
      max 0 ((p.width - 2 * wallThickness) * (p.height - 2 * wallThickness) *
             (p.depth - 2 * wallThickness)) := by
    unfold calcVolume
    simp [hp]
  have hwt : (2 : ℚ) * wallThickness = 3/2 := by norm_num [wallThickness]
  rw [hwt] at h2
  have hwhd : 0 < p.width * p.height * p.depth := by positivity
  have key : max 0 ((p.width - 3/2) * (p.height - 3/2) * (p.depth - 3/2)) ≤
      p.width * p.height * p.depth := by
    by_cases hW : p.width < 3/2 <;> by_cases hH : p.height < 3/2 <;>
      by_cases hD : p.depth < 3/2
    · -- all three small: product of three negative factors is negative
      have hab : 0 < (p.width - 3/2) * (p.height - 3/2) :=
        mul_pos_of_neg_of_neg (by linarith) (by linarith)
      have habc : (p.width - 3/2) * (p.height - 3/2) * (p.depth - 3/2) < 0 :=
        mul_neg_of_pos_of_neg hab (by linarith)
      exact max_le hwhd.le (by linarith)
    · -- width and height small, depth not: excluded by the count hypothesis
      rw [if_pos hW, if_pos hH, if_neg hD] at h2
      exact absurd (by norm_num) h2
    · -- width and depth small, height not: excluded
      rw [if_pos hW, if_neg hH, if_pos hD] at h2
      exact absurd (by norm_num) h2
    · -- only width small: middle factor nonnegative, first nonpositive
      have h23 : 0 ≤ (p.height - 3/2) * (p.depth - 3/2) :=
        mul_nonneg (by linarith) (by linarith)
      have habc : (p.width - 3/2) * ((p.height - 3/2) * (p.depth - 3/2)) ≤ 0 :=
        mul_nonpos_iff.mpr (Or.inr ⟨by linarith, h23⟩)
      refine max_le hwhd.le ?_
      nlinarith [habc]
    · -- height and depth small, width not: excluded
      rw [if_neg hW, if_pos hH, if_pos hD] at h2
      exact absurd (by norm_num) h2
    · -- only height small
      have h23 : 0 ≤ (p.width - 3/2) * (p.depth - 3/2) :=
        mul_nonneg (by linarith) (by linarith)
      have habc : (p.height - 3/2) * ((p.width - 3/2) * (p.depth - 3/2)) ≤ 0 :=
        mul_nonpos_iff.mpr (Or.inr ⟨by linarith, h23⟩)
      refine max_le hwhd.le ?_
      nlinarith [habc]
    · -- only depth small
      have h12 : 0 ≤ (p.width - 3/2) * (p.height - 3/2) :=
        mul_nonneg (by linarith) (by linarith)
      have habc : (p.width - 3/2) * (p.height - 3/2) * (p.depth - 3/2) ≤ 0 :=
        mul_nonpos_iff.mpr (Or.inl ⟨h12, by linarith⟩)
      exact max_le hwhd.le (by linarith)
    · -- none small: each factor lies between 0 and its dimension
      have s1 : (p.width - 3/2) * (p.height - 3/2) ≤ p.width * p.height :=
        mul_le_mul (by linarith) (by linarith) (by linarith) hw.le
      have s2 : (p.width - 3/2) * (p.height - 3/2) * (p.depth - 3/2) ≤
          p.width * p.height * p.depth :=
        mul_le_mul s1 (by linarith) (by linarith)
          (mul_nonneg hw.le hh.le)
      exact max_le hwhd.le s2
  have hnn : 0 ≤ calcVolume p := by
    rw [hvol, hwt, sub_nonneg]
    exact key
  exact ⟨hvol, hnn, calculatePieceWeight_nonneg hnn⟩

/-- C2 witness: the small hollow cube (all three dimensions below twice the
wall thickness) gets a nonnegative volume and weight. -/
theorem hollow_volume_nonneg_witness :
    0 ≤ calcVolume hollowCube1 ∧ 0 ≤ calculatePieceWeight hollowCube1 :=
  ⟨(hollow_volume_nonneg hollowCube1 rfl (by norm_num [hollowCube1])
      (by norm_num [hollowCube1]) (by norm_num [hollowCube1])
      (by norm_num [hollowCube1, wallThickness])).2.1,
   (hollow_volume_nonneg hollowCube1 rfl (by norm_num [hollowCube1])
      (by norm_num [hollowCube1]) (by norm_num [hollowCube1])
      (by norm_num [hollowCube1, wallThickness])).2.2⟩

/-! ### C5 — hollow vs solid weight -/

/-- C5 counterexample: (i) for the cylinder `cylSolid`, the hollow twin with
identical outer dimensions and material weighs strictly MORE than the solid
piece (3.8 lb vs 2.9 lb), because the hollow path ignores the shape; (ii) for
the 1.6-inch cube, the wall thickness 0.75 is strictly less than half the
smallest dimension, yet hollow and solid weights are equal after rounding —
so neither the unconditional ≤ over every shape nor the strictness clause of
the claim holds. -/
theorem hollow_le_solid_cx :
    calculatePieceWeight cylSolid < calculatePieceWeight { cylSolid with hollow := true } ∧
    (wallThickness < boxSixteen.width / 2 ∧ wallThickness < boxSixteen.height / 2 ∧
      wallThickness < boxSixteen.depth / 2) ∧
    calculatePieceWeight { boxSixteen with hollow := true } = calculatePieceWeight boxSixteen := by
  refine ⟨?_, ⟨?_, ?_, ?_⟩, ?_⟩ <;>
    (simp [cylSolid, boxSixteen, calculatePieceWeight, calcVolume, wallThickness,
       materialStrength, round10, jsRound, piJS]
     ; try norm_num)

/-- C5 (amended): for every non-cylinder shape, material and positive outer
dimensions, the hollow piece's weight is at most the solid piece's weight;
when the 0.75-inch wall thickness is less than half the smallest dimension
the hollow VOLUME is strictly smaller (though rounding to one decimal can
make the returned weights equal, and for cylinder-tagged pieces the hollow
weight can exceed the solid one). -/
theorem hollow_le_solid (p : Piece) (hs : p.shape ≠ "cylinder") :
    calculatePieceWeight { p with hollow := true } ≤
      calculatePieceWeight { p with hollow := false } ∧
    (wallThickness < p.width / 2 → wallThickness < p.height / 2 →
     wallThickness < p.depth / 2 →
      calcVolume { p with hollow := true } < calcVolume { p with hollow := false }) := by
  have hvolT : calcVolume { p with hollow := true } =
      p.width * p.height * p.depth -
        max 0 ((p.width - 2 * wallThickness) * (p.height - 2 * wallThickness) *
               (p.depth - 2 * wallThickness)) := by
    unfold calcVolume
    simp
  have hvolF : calcVolume { p with hollow := false } = p.width * p.height * p.depth := by
    unfold calcVolume
    simp [hs]
  constructor
  · unfold calculatePieceWeight
    have hle : calcVolume { p with hollow := true } ≤ calcVolume { p with hollow := false } := by
      rw [hvolT, hvolF]
      have := le_max_left (0 : ℚ)
        ((p.width - 2 * wallThickness) * (p.height - 2 * wallThickness) *
          (p.depth - 2 * wallThickness))
      linarith
    have hmul : calcVolume { p with hollow := true } * (materialStrength p.material).density ≤
        calcVolume { p with hollow := false } * (materialStrength p.material).density :=
      mul_le_mul_of_nonneg_right hle (density_pos p.material).le
    simpa using round10_mono hmul
  · intro h1 h2 h3
    rw [hvolT, hvolF]
    have hwt : (2 : ℚ) * wallThickness = 3/2 := by norm_num [wallThickness]
    rw [hwt]
    have hf1 : 0 < p.width - 3/2 := by
      rw [show wallThickness = (3:ℚ)/4 from rfl] at h1
      linarith
    have hf2 : 0 < p.height - 3/2 := by
      rw [show wallThickness = (3:ℚ)/4 from rfl] at h2
      linarith
    have hf3 : 0 < p.depth - 3/2 := by
      rw [show wallThickness = (3:ℚ)/4 from rfl] at h3
      linarith
    have hpos : 0 < (p.width - 3/2) * (p.height - 3/2) * (p.depth - 3/2) := by positivity
    have hmax : max 0 ((p.width - 3/2) * (p.height - 3/2) * (p.depth - 3/2)) =
        (p.width - 3/2) * (p.height - 3/2) * (p.depth - 3/2) := max_eq_right hpos.le
    rw [hmax]
    linarith

/-- C5 witness: for the 2-inch wood cube (a non-cylinder), hollow weighs at
most solid. -/
theorem hollow_le_solid_witness :
    calculatePieceWeight { boxTwo with hollow := true } ≤
      calculatePieceWeight { boxTwo with hollow := false } :=
  (hollow_le_solid boxTwo (by simp [boxTwo, mkBox])).1

/-! ### Concrete evaluation of the load loop on `cx1ps` -/

theorem pX_id : pX.id = "x" := rfl
theorem pY_id : pY.id = "y" := rfl
theorem pZ_id : pZ.id = "z" := rfl
theorem pV_id : pV.id = "v" := rfl
theorem pX_w : pX.width = 40 := rfl
theorem pX_d : pX.depth = 40 := rfl
theorem pX_m : pX.material = "wood" := rfl
theorem pY_w : pY.width = 10 := rfl
theorem pY_d : pY.depth = 10 := rfl
theorem pY_m : pY.material = "wood" := rfl
theorem pZ_w : pZ.width = 10 := rfl
theorem pZ_d : pZ.depth = 10 := rfl
theorem pZ_m : pZ.material = "wood" := rfl
theorem pV_w : pV.width = 10 := rfl
theorem pV_d : pV.depth = 10 := rfl
theorem pV_m : pV.material = "wood" := rfl

theorem is_xy : isSupporting pX pY = true := by
  simp [isSupporting, calculateOverlap, pX, pY, mkBox]; try norm_num
theorem is_xz : isSupporting pX pZ = true := by
  simp [isSupporting, calculateOverlap, pX, pZ, mkBox]; try norm_num
theorem is_xv : isSupporting pX pV = false := by
  simp [isSupporting, calculateOverlap, pX, pV, mkBox]; try norm_num
theorem is_yx : isSupporting pY pX = false := by
  simp [isSupporting, calculateOverlap, pY, pX, mkBox]; try norm_num
theorem is_yz : isSupporting pY pZ = false := by
  simp [isSupporting, calculateOverlap, pY, pZ, mkBox]; try norm_num
theorem is_yv : isSupporting pY pV = false := by
  simp [isSupporting, calculateOverlap, pY, pV, mkBox]; try norm_num
theorem is_zx : isSupporting pZ pX = false := by
  simp [isSupporting, calculateOverlap, pZ, pX, mkBox]; try norm_num
theorem is_zy : isSupporting pZ pY = false := by
  simp [isSupporting, calculateOverlap, pZ, pY, mkBox]; try norm_num
theorem is_zv : isSupporting pZ pV = true := by
  simp [isSupporting, calculateOverlap, pZ, pV, mkBox]; try norm_num
theorem is_vx : isSupporting pV pX = false := by
  simp [isSupporting, calculateOverlap, pV, pX, mkBox]; try norm_num
theorem is_vy : isSupporting pV pY = false := by
  simp [isSupporting, calculateOverlap, pV, pY, mkBox]; try norm_num
theorem is_vz : isSupporting pV pZ = false := by
  simp [isSupporting, calculateOverlap, pV, pZ, mkBox]; try norm_num

theorem w_x : calculatePieceWeight pX = 400 := by
  simp [calculatePieceWeight, calcVolume, pX, mkBox, materialStrength, round10, jsRound]
  norm_num
theorem w_y : calculatePieceWeight pY = 25/2 := by
  simp [calculatePieceWeight, calcVolume, pY, mkBox, materialStrength, round10, jsRound]
  norm_num
theorem w_z : calculatePieceWeight pZ = 25/2 := by
  simp [calculatePieceWeight, calcVolume, pZ, mkBox, materialStrength, round10, jsRound]
  norm_num
theorem w_v : calculatePieceWeight pV = 25/2 := by
  simp [calculatePieceWeight, calcVolume, pV, mkBox, materialStrength, round10, jsRound]
  norm_num

theorem s_x : supportingIds [pX, pY, pZ, pV] pX = ["y", "z"] := by
  simp [supportingIds, List.filter, is_xy, is_xz, is_xv, pX_id, pY_id, pZ_id, pV_id]
theorem s_y : supportingIds [pX, pY, pZ, pV] pY = [] := by
  simp [supportingIds, List.filter, is_yx, is_yz, is_yv, pX_id, pY_id, pZ_id, pV_id]
theorem s_z : supportingIds [pX, pY, pZ, pV] pZ = ["v"] := by
  simp [supportingIds, List.filter, is_zx, is_zy, is_zv, pX_id, pY_id, pZ_id, pV_id]
theorem s_v : supportingIds [pX, pY, pZ, pV] pV = [] := by
  simp [supportingIds, List.filter, is_vx, is_vy, is_vz, pX_id, pY_id, pZ_id, pV_id]

theorem b_x : supportedByIds [pX, pY, pZ, pV] pX = [] := by
  simp [supportedByIds, List.filter, is_yx, is_zx, is_vx, pX_id, pY_id, pZ_id, pV_id]
theorem b_y : supportedByIds [pX, pY, pZ, pV] pY = ["x"] := by
  simp [supportedByIds, List.filter, is_xy, is_zy, is_vy, pX_id, pY_id, pZ_id, pV_id]
theorem b_z : supportedByIds [pX, pY, pZ, pV] pZ = ["x"] := by
  simp [supportedByIds, List.filter, is_xz, is_yz, is_vz, pX_id, pY_id, pZ_id, pV_id]
theorem b_v : supportedByIds [pX, pY, pZ, pV] pV = ["z"] := by
  simp [supportedByIds, List.filter, is_xv, is_yv, is_zv, pX_id, pY_id, pZ_id, pV_id]

theorem f_x : findPieceById [pX, pY, pZ, pV] "x" = some pX := by
  simp [findPieceById, List.find?, pX_id]
theorem f_y : findPieceById [pX, pY, pZ, pV] "y" = some pY := by
  simp [findPieceById, List.find?, pX_id, pY_id]
theorem f_z : findPieceById [pX, pY, pZ, pV] "z" = some pZ := by
  simp [findPieceById, List.find?, pX_id, pY_id, pZ_id]
theorem f_v : findPieceById [pX, pY, pZ, pV] "v" = some pV := by
  simp [findPieceById, List.find?, pX_id, pY_id, pZ_id, pV_id]

theorem st0L : initLoadState [pX, pY, pZ, pV] =
    { queue := ["y", "v"], processed := [], loads := [], stress := [] } := by
  norm_num [initLoadState, List.filter_cons, s_x, s_y, s_z, s_v, pX_id, pY_id, pZ_id, pV_id]
  simp [pX_id, pY_id, pZ_id, pV_id]

theorem e1L : loadStep [pX, pY, pZ, pV]
    { queue := ["y", "v"], processed := [], loads := [], stress := [] } =
    { queue := ["v", "x"], processed := ["y"], loads := [("y", 25/2)],
      stress := [("y", 1/1200)] } := by
  norm_num [loadStep, f_y, w_y, s_y, b_y, alookup, min_def, materialStrength,
    pY_w, pY_d, pY_m, List.filter_cons, List.find?]
  try simp
  try norm_num
  try simp

theorem e2L : loadStep [pX, pY, pZ, pV]
    { queue := ["v", "x"], processed := ["y"], loads := [("y", 25/2)],
      stress := [("y", 1/1200)] } =
    { queue := ["x", "z"], processed := ["v", "y"], loads := [("v", 25/2), ("y", 25/2)],
      stress := [("v", 1/1200), ("y", 1/1200)] } := by
  norm_num [loadStep, f_v, w_v, s_v, b_v, alookup, min_def, materialStrength,
    pV_w, pV_d, pV_m, List.filter_cons, List.find?]
  try simp
  try norm_num
  try simp

theorem e3L : loadStep [pX, pY, pZ, pV]
    { queue := ["x", "z"], processed := ["v", "y"], loads := [("v", 25/2), ("y", 25/2)],
      stress := [("v", 1/1200), ("y", 1/1200)] } =
    { queue := ["z"], processed := ["x", "v", "y"],
      loads := [("x", 825/2), ("v", 25/2), ("y", 25/2)],
      stress := [("x", 11/6400), ("v", 1/1200), ("y", 1/1200)] } := by
  norm_num [loadStep, f_x, w_x, s_x, b_x, alookup, min_def, materialStrength,
    pX_w, pX_d, pX_m, List.filter_cons, List.find?]
  try simp
  try norm_num
  try simp

theorem e4L : loadStep [pX, pY, pZ, pV]
    { queue := ["z"], processed := ["x", "v", "y"],
      loads := [("x", 825/2), ("v", 25/2), ("y", 25/2)],
      stress := [("x", 11/6400), ("v", 1/1200), ("y", 1/1200)] } =
    { queue := [], processed := ["z", "x", "v", "y"],
      loads := [("z", 25), ("x", 825/2), ("v", 25/2), ("y", 25/2)],
      stress := [("z", 1/600), ("x", 11/6400), ("v", 1/1200), ("y", 1/1200)] } := by
  norm_num [loadStep, f_z, w_z, s_z, b_z, alookup, min_def, materialStrength,
    pZ_w, pZ_d, pZ_m, List.filter_cons, List.find?]
  try simp
  try norm_num
  try simp

/-- The complete run of the load loop on `cx1ps`: the queue drains after
processing `y`, `v`, `x`, `z` in that order, and `x` is processed while `z`
is still unprocessed, so `z`'s load never reaches `x`. -/
theorem traceL : calculateLoadDistribution [pX, pY, pZ, pV] =
    { queue := [], processed := ["z", "x", "v", "y"],
      loads := [("z", 25), ("x", 825/2), ("v", 25/2), ("y", 25/2)],
      stress := [("z", 1/600), ("x", 11/6400), ("v", 1/1200), ("y", 1/1200)] } := by
  norm_num [calculateLoadDistribution, loadFuel, st0L, loadLoop, e1L, e2L, e3L, e4L]
  try simp [loadLoop, e1L, e2L, e3L, e4L]
  try norm_num [loadLoop, e1L, e2L, e3L, e4L]
  try simp [loadLoop, e1L, e2L, e3L, e4L]

/-- C1 counterexample: on the acyclic four-piece input `cx1ps` (unique ids,
acyclicity witnessed by the rank `cx1rank`), the base node `x` has
`supporting = [y, z]` and own weight 400, but its final `totalLoad` is 412.5
while `weight(x) + totalLoad(y) + totalLoad(z) = 437.5`: the FIFO queue
processed `x` before `z`, so the claimed exact equality (and the claimed
processing-order guarantee) fails. -/
theorem load_conservation_cx :
    ((cx1ps.map fun p => p.id).Nodup) ∧
    (∀ p ∈ cx1ps, ∀ s ∈ supportingIds cx1ps p, cx1rank s < cx1rank p.id) ∧
    supIdsOf cx1ps "x" = ["y", "z"] ∧
    weightOf cx1ps "x" = 400 ∧
    alookup (calculateLoadDistribution cx1ps).loads "x" = 825/2 ∧
    alookup (calculateLoadDistribution cx1ps).loads "y" = 25/2 ∧
    alookup (calculateLoadDistribution cx1ps).loads "z" = 25 ∧
    alookup (calculateLoadDistribution cx1ps).loads "x" ≠
      weightOf cx1ps "x" +
        (alookup (calculateLoadDistribution cx1ps).loads "y" +
         alookup (calculateLoadDistribution cx1ps).loads "z") := by
  refine ⟨?_, ?_, ?_, ?_, ?_, ?_, ?_, ?_⟩
  · simp [cx1ps, pX_id, pY_id, pZ_id, pV_id]
  · intro p hp s hs
    simp only [cx1ps] at hs
    simp only [cx1ps, List.mem_cons, List.not_mem_nil, or_false] at hp
    rcases hp with rfl | rfl | rfl | rfl
    · rw [s_x] at hs
      simp only [List.mem_cons, List.not_mem_nil, or_false] at hs
      rcases hs with rfl | rfl <;> simp [cx1rank, pX_id]
    · rw [s_y] at hs
      simp at hs
    · rw [s_z] at hs
      simp only [List.mem_cons, List.not_mem_nil, or_false] at hs
      rcases hs with rfl
      simp [cx1rank, pZ_id]
    · rw [s_v] at hs
      simp at hs
  · simp [supIdsOf, cx1ps, f_x, s_x]
  · simp [weightOf, cx1ps, f_x, w_x]
  · simp only [cx1ps]
    rw [traceL]
    simp [alookup, List.find?]
  · simp only [cx1ps]
    rw [traceL]
    simp [alookup, List.find?]
  · simp only [cx1ps]
    rw [traceL]
    simp [alookup, List.find?]
  · simp only [cx1ps]
    rw [traceL]
    simp [alookup, List.find?, weightOf, f_x, w_x]
    norm_num

/-! ### General lemmas about lookups, ids and the support lists -/

theorem alookup_nil (i : String) : alookup [] i = 0 := rfl

theorem alookup_cons (j : String) (v : ℚ) (l : List (String × ℚ)) (i : String) :
    alookup ((j, v) :: l) i = if i = j then v else alookup l i := by
  rcases eq_or_ne i j with rfl | h
  · simp [alookup, List.find?]
  · simp [alookup, List.find?, Ne.symm h, h]

theorem sum_map_eq_sum_filter (l : List String) (f : String → ℚ) (p : String → Bool)
    (h : ∀ x ∈ l, p x = false → f x = 0) :
    (l.map f).sum = ((l.filter p).map f).sum := by
  induction l with
  | nil => rfl
  | cons a t ih =>
    have ht : ∀ x ∈ t, p x = false → f x = 0 :=
      fun x hx => h x (List.mem_cons_of_mem _ hx)
    cases hpa : p a with
    | true => simp [List.filter_cons, hpa, ih ht]
    | false => simp [List.filter_cons, hpa, h a (List.mem_cons_self _ _) hpa, ih ht]

theorem id_injective {pieces : List Piece} (hids : (pieces.map fun p => p.id).Nodup)
    {p q : Piece} (hp : p ∈ pieces) (hq : q ∈ pieces) (h : p.id = q.id) : p = q :=
  List.inj_on_of_nodup_map hids hp hq h

theorem findPieceById_self {pieces : List Piece}
    (hids : (pieces.map fun p => p.id).Nodup) {p : Piece} (hp : p ∈ pieces) :
    findPieceById pieces p.id = some p := by
  induction pieces with
  | nil => cases hp
  | cons a t ih =>
    rcases List.mem_cons.mp hp with rfl | hpt
    · unfold findPieceById
      exact List.find?_cons_of_pos _ (by simp)
    · have hne : ¬ (a.id = p.id) := by
        intro hcontra
        have : p.id ∈ t.map fun q => q.id := List.mem_map.mpr ⟨p, hpt, rfl⟩
        rw [List.map_cons] at hids
        exact (List.nodup_cons.mp hids).1 (hcontra ▸ this)
      have ht : (t.map fun q => q.id).Nodup := by
        rw [List.map_cons] at hids
        exact (List.nodup_cons.mp hids).2
      unfold findPieceById at ih ⊢
      rw [List.find?_cons_of_neg _ (by simpa using hne)]
      exact ih ht hpt

theorem findPieceById_mem {pieces : List Piece} {i : String} {p : Piece}
    (h : findPieceById pieces i = some p) : p ∈ pieces ∧ p.id = i := by
  refine ⟨List.mem_of_find?_eq_some h, ?_⟩
  have := List.find?_some h
  simpa using this

theorem findPieceById_isSome {pieces : List Piece} {i : String}
    (h : ∃ p ∈ pieces, p.id = i) : ∃ q, findPieceById pieces i = some q := by
  obtain ⟨p, hp, hpi⟩ := h
  cases hf : findPieceById pieces i with
  | some q => exact ⟨q, rfl⟩
  | none =>
    unfold findPieceById at hf
    rw [List.find?_eq_none] at hf
    exact absurd (by simpa using hpi) (by simpa using hf p hp)

theorem mem_supportingIds_elim {pieces : List Piece} {p : Piece} {i : String}
    (h : i ∈ supportingIds pieces p) :
    ∃ u ∈ pieces, u.id = i ∧ u.id ≠ p.id ∧ isSupporting p u = true := by
  unfold supportingIds at h
  rw [List.mem_map] at h
  obtain ⟨u, hu, hui⟩ := h
  rw [List.mem_filter] at hu
  obtain ⟨humem, hcond⟩ := hu
  rw [Bool.and_eq_true, decide_eq_true_eq] at hcond
  exact ⟨u, humem, hui, hui ▸ hcond.1, hcond.2⟩

theorem mem_supportingIds_intro {pieces : List Piece} {p u : Piece}
    (hu : u ∈ pieces) (hne : u.id ≠ p.id) (hsup : isSupporting p u = true) :
    u.id ∈ supportingIds pieces p := by
  unfold supportingIds
  rw [List.mem_map]
  exact ⟨u, List.mem_filter.mpr ⟨hu, by simp [hne, hsup]⟩, rfl⟩

theorem mem_supportedByIds_elim {pieces : List Piece} {p : Piece} {i : String}
    (h : i ∈ supportedByIds pieces p) :
    ∃ l ∈ pieces, l.id = i ∧ l.id ≠ p.id ∧ isSupporting l p = true := by
  unfold supportedByIds at h
  rw [List.mem_map] at h
  obtain ⟨l, hl, hli⟩ := h
  rw [List.mem_filter] at hl
  obtain ⟨hlmem, hcond⟩ := hl
  rw [Bool.and_eq_true, decide_eq_true_eq] at hcond
  exact ⟨l, hlmem, hli, hli ▸ hcond.1, hcond.2⟩

theorem mem_supportedByIds_intro {pieces : List Piece} {p l : Piece}
    (hl : l ∈ pieces) (hne : l.id ≠ p.id) (hsup : isSupporting l p = true) :
    l.id ∈ supportedByIds pieces p := by
  unfold supportedByIds
  rw [List.mem_map]
  exact ⟨l, List.mem_filter.mpr ⟨hl, by simp [hne, hsup]⟩, rfl⟩

/-! ### Preservation of the loop invariant by one loop iteration -/

theorem loadStep_inv (pieces : List Piece) (st : LoadState) (h : LoadInv pieces st) :
    LoadInv pieces (loadStep pieces st) := by
  obtain ⟨hQV, hND, hZero, hEq, hClosed⟩ := h
  rcases st with ⟨q, proc, loads, stress⟩
  cases q with
  | nil => exact ⟨hQV, hND, hZero, hEq, hClosed⟩
  | cons hd rest =>
    by_cases hp : hd ∈ proc
    · -- already processed: only the queue shrinks
      simp only [loadStep, if_pos hp]
      refine ⟨?_, hND, hZero, hEq, ?_⟩
      · intro i hi
        exact hQV i (List.mem_cons_of_mem _ hi)
      · intro i hi j hj
        rcases hClosed i hi j hj with hj1 | hj2
        · exact Or.inl hj1
        · rcases List.mem_cons.mp hj2 with rfl | hj3
          · exact Or.inl hp
          · exact Or.inr hj3
    · have hhd : ∃ p ∈ pieces, p.id = hd := hQV hd (List.mem_cons_self _ _)
      obtain ⟨piece, hfind⟩ := findPieceById_isSome hhd
      have hpmem := (findPieceById_mem hfind).1
      have hpid := (findPieceById_mem hfind).2
      simp only [loadStep, if_neg hp, hfind]
      constructor
      · -- QueueValid
        intro i hi
        rcases List.mem_append.mp hi with hi1 | hi2
        · exact hQV i (List.mem_cons_of_mem _ hi1)
        · have := List.mem_of_mem_filter hi2
          obtain ⟨l, hl, hli, _, _⟩ := mem_supportedByIds_elim this
          exact ⟨l, hl, hli⟩
      constructor
      · -- Nodup of processed
        exact List.nodup_cons.mpr ⟨hp, hND⟩
      constructor
      · -- unprocessed nodes still read 0
        intro i hi
        have hine : i ≠ hd := fun hcontra => hi (hcontra ▸ List.mem_cons_self _ _)
        have hiproc : i ∉ proc := fun hcontra => hi (List.mem_cons_of_mem _ hcontra)
        rw [alookup_cons, if_neg hine]
        exact hZero i hiproc
      constructor
      · -- the processed-node load equation
        intro pre i suf hdecomp
        cases pre with
        | nil =>
          simp only [List.nil_append] at hdecomp
          injection hdecomp with hi hsuf
          rw [← hi, ← hsuf]
          rw [alookup_cons, if_pos rfl]
          have hsup : supIdsOf pieces hd = supportingIds pieces piece := by
            unfold supIdsOf
            rw [hfind]
          have hwt : weightOf pieces hd = calculatePieceWeight piece := by
            unfold weightOf
            rw [hfind]
          rw [hsup, hwt]
          have hzero_filter :
              ((supportingIds pieces piece).map (alookup loads)).sum =
              (((supportingIds pieces piece).filter fun s => decide (s ∈ proc)).map
                (alookup loads)).sum := by
            refine sum_map_eq_sum_filter _ _ _ ?_
            intro x hx hxfalse
            have : x ∉ proc := by simpa using hxfalse
            exact hZero x this
          have hmap :
              (((supportingIds pieces piece).filter fun s => decide (s ∈ proc)).map
                (alookup loads)).sum =
              (((supportingIds pieces piece).filter fun s => decide (s ∈ proc)).map
                (alookup ((hd, calculatePieceWeight piece +
                  ((supportingIds pieces piece).map (alookup loads)).sum) :: loads))).sum := by
            refine congrArg List.sum (List.map_congr_left ?_)
            intro s hs
            have hsproc : s ∈ proc := by
              have := (List.mem_filter.mp hs).2
              simpa using this
            have hsne : s ≠ hd := fun hcontra => hp (hcontra ▸ hsproc)
            rw [alookup_cons, if_neg hsne]
          rw [← hmap, ← hzero_filter]
        | cons a pre2 =>
          injection hdecomp with ha hproc
          subst ha
          have hiproc : i ∈ proc := by
            rw [hproc]
            exact List.mem_append_right _ (List.mem_cons_self _ _)
          have hine : i ≠ hd := fun hcontra => hp (hcontra ▸ hiproc)
          rw [alookup_cons, if_neg hine]
          have hold := hEq pre2 i suf hproc
          rw [hold]
          congr 1
          refine congrArg List.sum (List.map_congr_left ?_)
          intro s hs
          have hssuf : s ∈ suf := by
            have := (List.mem_filter.mp hs).2
            simpa using this
          have hsproc : s ∈ proc := by
            rw [hproc]
            exact List.mem_append_right _ (List.mem_cons_of_mem _ hssuf)
          have hsne : s ≠ hd := fun hcontra => hp (hcontra ▸ hsproc)
          rw [alookup_cons, if_neg hsne]
      · -- closure of processed under supportedBy
        intro i hi j hj
        rcases List.mem_cons.mp hi with rfl | hiproc
        · -- the newly processed node: its supporters are processed or enqueued
          have hjsup : j ∈ supportedByIds pieces piece := by
            unfold supByOf at hj
            rw [hfind] at hj
            exact hj
          by_cases hjp : j ∈ i :: proc
          · exact Or.inl hjp
          · refine Or.inr (List.mem_append_right _ ?_)
            rw [List.mem_filter]
            exact ⟨hjsup, by simpa using hjp⟩
        · rcases hClosed i hiproc j hj with hj1 | hj2
          · exact Or.inl (List.mem_cons_of_mem _ hj1)
          · rcases List.mem_cons.mp hj2 with rfl | hj3
            · exact Or.inl (List.mem_cons_self _ _)
            · exact Or.inr (List.mem_append_left _ hj3)

/-! ### Loop-level invariant lemmas -/

theorem loadStep_queueValid (pieces : List Piece) (st : LoadState)
    (h : QueueValid pieces st) : QueueValid pieces (loadStep pieces st) := by
  rcases st with ⟨q, proc, loads, stress⟩
  cases q with
  | nil => exact h
  | cons hd rest =>
    by_cases hp : hd ∈ proc
    · simp only [loadStep, if_pos hp]
      intro i hi
      exact h i (List.mem_cons_of_mem _ hi)
    · cases hf : findPieceById pieces hd with
      | none =>
        simp only [loadStep, if_neg hp, hf]
        intro i hi
        exact h i (List.mem_cons_of_mem _ hi)
      | some piece =>
        simp only [loadStep, if_neg hp, hf]
        intro i hi
        rcases List.mem_append.mp hi with hi1 | hi2
        · exact h i (List.mem_cons_of_mem _ hi1)
        · obtain ⟨l, hl, hli, _, _⟩ := mem_supportedByIds_elim (List.mem_of_mem_filter hi2)
          exact ⟨l, hl, hli⟩

theorem loadLoop_inv (pieces : List Piece) (n : Nat) :
    ∀ st, LoadInv pieces st → LoadInv pieces (loadLoop pieces n st) := by
  induction n with
  | zero => exact fun st h => h
  | succ n ih =>
    intro st h
    by_cases hq : st.queue = []
    · simp only [loadLoop, if_pos hq]
      exact h
    · simp only [loadLoop, if_neg hq]
      exact ih _ (loadStep_inv pieces st h)

theorem initLoadState_inv (pieces : List Piece) : LoadInv pieces (initLoadState pieces) := by
  refine ⟨?_, ?_, ?_, ?_, ?_⟩
  · intro i hi
    unfold initLoadState at hi
    obtain ⟨p, hpf, hpi⟩ := List.mem_map.mp hi
    exact ⟨p, List.mem_of_mem_filter hpf, hpi⟩
  · simp [initLoadState]
  · intro i _
    rfl
  · intro pre i suf hdecomp
    unfold initLoadState at hdecomp
    have := congrArg List.length hdecomp
    simp at this
    omega
  · intro i hi
    simp [initLoadState] at hi

theorem loadStep_mem_preserved (pieces : List Piece) (st : LoadState)
    (hQV : QueueValid pieces st) (i : String)
    (hi : i ∈ st.queue ∨ i ∈ st.processed) :
    i ∈ (loadStep pieces st).queue ∨ i ∈ (loadStep pieces st).processed := by
  rcases st with ⟨q, proc, loads, stress⟩
  cases q with
  | nil => exact hi
  | cons hd rest =>
    by_cases hp : hd ∈ proc
    · simp only [loadStep, if_pos hp]
      rcases hi with hq | hpr
      · rcases List.mem_cons.mp hq with rfl | hrest
        · exact Or.inr hp
        · exact Or.inl hrest
      · exact Or.inr hpr
    · obtain ⟨piece, hfind⟩ := findPieceById_isSome (hQV hd (List.mem_cons_self _ _))
      simp only [loadStep, if_neg hp, hfind]
      rcases hi with hq | hpr
      · rcases List.mem_cons.mp hq with rfl | hrest
        · exact Or.inr (List.mem_cons_self _ _)
        · exact Or.inl (List.mem_append_left _ hrest)
      · exact Or.inr (List.mem_cons_of_mem _ hpr)

theorem mem_final_processed (pieces : List Piece) (n : Nat) :
    ∀ st, QueueValid pieces st → (loadLoop pieces n st).queue = [] →
      ∀ i, (i ∈ st.queue ∨ i ∈ st.processed) → i ∈ (loadLoop pieces n st).processed := by
  induction n with
  | zero =>
    intro st _ hfin i hi
    simp only [loadLoop] at hfin ⊢
    rcases hi with hq | hpz
    · rw [hfin] at hq
      cases hq
    · exact hpz
  | succ n ih =>
    intro st hQV hfin i hi
    by_cases hq : st.queue = []
    · simp only [loadLoop, if_pos hq] at hfin ⊢
      rcases hi with h1 | h2
      · rw [hq] at h1
        cases h1
      · exact h2
    · simp only [loadLoop, if_neg hq] at hfin ⊢
      exact ih (loadStep pieces st) (loadStep_queueValid pieces st hQV) hfin i
        (loadStep_mem_preserved pieces st hQV i hi)

/-! ### Termination: the loop provably drains its queue within the fuel -/

theorem length_supportedByIds_le (pieces : List Piece) (p : Piece) :
    (supportedByIds pieces p).length ≤ pieces.length := by
  unfold supportedByIds
  rw [List.length_map]
  exact List.length_filter_le _ _

theorem supByOf_length_le (pieces : List Piece) (i : String) :
    (supByOf pieces i).length ≤ pieces.length := by
  unfold supByOf
  cases h : findPieceById pieces i with
  | none => simp
  | some p => exact length_supportedByIds_le pieces p

theorem sum_filter_erase_cons (l : List String) (hl : l.Nodup) (f : String → Nat)
    (proc : List String) (a : String) (ha : a ∈ l) (hna : a ∉ proc) :
    ((l.filter fun i => decide (i ∉ a :: proc)).map f).sum + f a =
    ((l.filter fun i => decide (i ∉ proc)).map f).sum := by
  induction l with
  | nil => cases ha
  | cons b t ih =>
    have hbt : b ∉ t := (List.nodup_cons.mp hl).1
    have ht : t.Nodup := (List.nodup_cons.mp hl).2
    rcases List.mem_cons.mp ha with rfl | hat
    · have hfilters : (t.filter fun i => decide (i ∉ a :: proc)) =
          (t.filter fun i => decide (i ∉ proc)) := by
        refine List.filter_congr ?_
        intro x hx
        have hxa : x ≠ a := fun hc => hbt (hc ▸ hx)
        exact decide_eq_decide.mpr (by simp [hxa])
      rw [List.filter_cons, List.filter_cons]
      have h1 : (decide (a ∉ a :: proc)) = false := by simp
      have h2 : (decide (a ∉ proc)) = true := by simpa using hna
      rw [h1, h2, hfilters]
      simp [Nat.add_comm]
    · have hba : b ≠ a := fun hc => hbt (hc ▸ hat)
      rw [List.filter_cons, List.filter_cons]
      have hcond : (decide (b ∉ a :: proc)) = (decide (b ∉ proc)) :=
        decide_eq_decide.mpr (by simp [hba])
      rw [hcond]
      cases hb : decide (b ∉ proc) with
      | true =>
        rw [if_pos rfl, if_pos rfl]
        simp only [List.map_cons, List.sum_cons]
        have := ih ht hat
        omega
      | false =>
        rw [if_neg (by simp), if_neg (by simp)]
        exact ih ht hat

theorem phi_loadStep_lt (pieces : List Piece)
    (hids : (pieces.map fun p => p.id).Nodup) (st : LoadState)
    (hQV : QueueValid pieces st) (hq : st.queue ≠ []) :
    phi pieces (loadStep pieces st) < phi pieces st := by
  rcases st with ⟨q, proc, loads, stress⟩
  cases q with
  | nil => exact absurd rfl hq
  | cons hd rest =>
    by_cases hp : hd ∈ proc
    · simp only [loadStep, if_pos hp]
      unfold phi
      simp only [List.length_cons]
      omega
    · obtain ⟨piece, hfind⟩ := findPieceById_isSome (hQV hd (List.mem_cons_self _ _))
      simp only [loadStep, if_neg hp, hfind]
      unfold phi
      simp only [List.length_cons, List.length_append]
      have hflen : ((supportedByIds pieces piece).filter
          fun s => decide (s ∉ hd :: proc)).length ≤ (supportedByIds pieces piece).length :=
        List.length_filter_le _ _
      have hdval : hd ∈ validIds pieces := by
        obtain ⟨p, hpm, hpi⟩ := hQV hd (List.mem_cons_self _ _)
        exact List.mem_map.mpr ⟨p, hpm, hpi⟩
      have hvnodup : (validIds pieces).Nodup := hids
      have hsum := sum_filter_erase_cons (validIds pieces) hvnodup
        (fun i => 1 + (supByOf pieces i).length) proc hd hdval hp
      have hsby : supByOf pieces hd = supportedByIds pieces piece := by
        unfold supByOf
        rw [hfind]
      dsimp only at hsum
      rw [hsby] at hsum
      omega

theorem loadLoop_drains (pieces : List Piece)
    (hids : (pieces.map fun p => p.id).Nodup) (n : Nat) :
    ∀ st, QueueValid pieces st → phi pieces st ≤ n →
      (loadLoop pieces n st).queue = [] := by
  induction n with
  | zero =>
    intro st _ hphi
    have hlen : st.queue.length = 0 := by
      unfold phi at hphi
      omega
    simpa only [loadLoop] using List.length_eq_zero.mp hlen
  | succ n ih =>
    intro st hQV hphi
    by_cases hq : st.queue = []
    · simp only [loadLoop, if_pos hq]
      exact hq
    · simp only [loadLoop, if_neg hq]
      refine ih (loadStep pieces st) (loadStep_queueValid pieces st hQV) ?_
      have := phi_loadStep_lt pieces hids st hQV hq
      omega

theorem phi_init_le (pieces : List Piece) :
    phi pieces (initLoadState pieces) ≤ loadFuel pieces := by
  unfold phi initLoadState loadFuel
  simp only [List.length_map]
  have h1 : ((pieces.filter fun p => decide (supportingIds pieces p = [])).length) ≤
      pieces.length := List.length_filter_le _ _
  have h2 : (((validIds pieces).filter fun i => decide (i ∉ ([] : List String))).map
      fun i => 1 + (supByOf pieces i).length).sum ≤
      pieces.length * (1 + pieces.length) := by
    have hB : ∀ x ∈ ((validIds pieces).filter fun i => decide (i ∉ ([] : List String))).map
        (fun i => 1 + (supByOf pieces i).length), x ≤ 1 + pieces.length := by
      intro x hx
      obtain ⟨j, _, hj⟩ := List.mem_map.mp hx
      rw [← hj]
      have := supByOf_length_le pieces j
      omega
    have hlen : (((validIds pieces).filter fun i => decide (i ∉ ([] : List String))).map
        fun i => 1 + (supByOf pieces i).length).length ≤ pieces.length := by
      rw [List.length_map]
      calc ((validIds pieces).filter fun i => decide (i ∉ ([] : List String))).length
          ≤ (validIds pieces).length := List.length_filter_le _ _
        _ = pieces.length := by unfold validIds; rw [List.length_map]
    have := List.sum_le_card_nsmul
      (((validIds pieces).filter fun i => decide (i ∉ ([] : List String))).map
        fun i => 1 + (supByOf pieces i).length) (1 + pieces.length) hB
    have hmul : (((validIds pieces).filter fun i => decide (i ∉ ([] : List String))).map
        fun i => 1 + (supByOf pieces i).length).length • (1 + pieces.length) ≤
        pieces.length * (1 + pieces.length) := by
      rw [smul_eq_mul]
      exact Nat.mul_le_mul_right _ hlen
    omega
  have hexp : pieces.length * (1 + pieces.length) = pieces.length + pieces.length * pieces.length := by
    ring
  have hexp2 : (pieces.length + 1) * (pieces.length + 1) =
      pieces.length * pieces.length + 2 * pieces.length + 1 := by
    ring
  omega

theorem calcLoad_queue_nil (pieces : List Piece)
    (hids : (pieces.map fun p => p.id).Nodup) :
    (calculateLoadDistribution pieces).queue = [] := by
  unfold calculateLoadDistribution
  exact loadLoop_drains pieces hids (loadFuel pieces) (initLoadState pieces)
    (initLoadState_inv pieces).1 (phi_init_le pieces)

theorem calcLoad_inv (pieces : List Piece) :
    LoadInv pieces (calculateLoadDistribution pieces) :=
  loadLoop_inv pieces (loadFuel pieces) (initLoadState pieces) (initLoadState_inv pieces)

/-! ### Every node is processed when the support graph is acyclic -/

theorem calcLoad_all_processed (pieces : List Piece)
    (hids : (pieces.map fun p => p.id).Nodup) (rank : String → Nat)
    (hrank : ∀ p ∈ pieces, ∀ s ∈ supportingIds pieces p, rank s < rank p.id) :
    ∀ p ∈ pieces, p.id ∈ (calculateLoadDistribution pieces).processed := by
  have hnil := calcLoad_queue_nil pieces hids
  have hinv := calcLoad_inv pieces
  have hclosed : ∀ i ∈ (calculateLoadDistribution pieces).processed,
      ∀ j ∈ supByOf pieces i, j ∈ (calculateLoadDistribution pieces).processed := by
    intro i hi j hj
    rcases hinv.2.2.2.2 i hi j hj with h1 | h2
    · exact h1
    · rw [hnil] at h2
      cases h2
  suffices hmain : ∀ k, ∀ p ∈ pieces, rank p.id < k →
      p.id ∈ (calculateLoadDistribution pieces).processed by
    exact fun p hp => hmain (rank p.id + 1) p hp (Nat.lt_succ_self _)
  intro k
  induction k with
  | zero =>
    intro p _ h
    omega
  | succ k ih =>
    intro p hp hlt
    by_cases hsup : supportingIds pieces p = []
    · have hqinit : p.id ∈ (initLoadState pieces).queue := by
        unfold initLoadState
        exact List.mem_map.mpr ⟨p, List.mem_filter.mpr ⟨hp, by simp [hsup]⟩, rfl⟩
      have := mem_final_processed pieces (loadFuel pieces) (initLoadState pieces)
        (initLoadState_inv pieces).1 (by exact hnil) p.id (Or.inl hqinit)
      exact this
    · obtain ⟨sid, hsid⟩ := List.exists_mem_of_ne_nil _ hsup
      obtain ⟨u, hu, huid, hune, husup⟩ := mem_supportingIds_elim hsid
      have hrk : rank sid < rank p.id := hrank p hp sid hsid
      have hup : u.id ∈ (calculateLoadDistribution pieces).processed := by
        refine ih u hu ?_
        rw [huid]
        omega
      have hpmem : p.id ∈ supportedByIds pieces u :=
        mem_supportedByIds_intro hp (fun hc => hune hc.symm) husup
      have hsby : supByOf pieces u.id = supportedByIds pieces u := by
        unfold supByOf
        rw [findPieceById_self hids hu]
      exact hclosed u.id hup p.id (hsby ▸ hpmem)

/-! ### Nonnegative loads and bounded stress -/

theorem loadStep_loads_nonneg (pieces : List Piece) (st : LoadState)
    (hw : ∀ p ∈ pieces, 0 ≤ calculatePieceWeight p)
    (h : ∀ i, 0 ≤ alookup st.loads i) :
    ∀ i, 0 ≤ alookup (loadStep pieces st).loads i := by
  rcases st with ⟨q, proc, loads, stress⟩
  cases q with
  | nil => exact h
  | cons hd rest =>
    by_cases hp : hd ∈ proc
    · simp only [loadStep, if_pos hp]
      exact h
    · cases hf : findPieceById pieces hd with
      | none =>
        simp only [loadStep, if_neg hp, hf]
        exact h
      | some piece =>
        simp only [loadStep, if_neg hp, hf]
        intro i
        rw [alookup_cons]
        by_cases hi : i = hd
        · rw [if_pos hi]
          have hw1 : 0 ≤ calculatePieceWeight piece := hw piece (findPieceById_mem hf).1
          have hw2 : 0 ≤ ((supportingIds pieces piece).map (alookup loads)).sum := by
            refine List.sum_nonneg ?_
            intro x hx
            obtain ⟨j, _, hj⟩ := List.mem_map.mp hx
            rw [← hj]
            exact h j
          linarith
        · rw [if_neg hi]
          exact h i

theorem loadStep_stress_bounds (pieces : List Piece) (st : LoadState)
    (hdims : ∀ p ∈ pieces, 0 < p.width ∧ 0 < p.height ∧ 0 < p.depth)
    (hw : ∀ p ∈ pieces, 0 ≤ calculatePieceWeight p)
    (hl : ∀ i, 0 ≤ alookup st.loads i)
    (h : ∀ i, 0 ≤ alookup st.stress i ∧ alookup st.stress i ≤ 1) :
    ∀ i, 0 ≤ alookup (loadStep pieces st).stress i ∧
      alookup (loadStep pieces st).stress i ≤ 1 := by
  rcases st with ⟨q, proc, loads, stress⟩
  cases q with
  | nil => exact h
  | cons hd rest =>
    by_cases hp : hd ∈ proc
    · simp only [loadStep, if_pos hp]
      exact h
    · cases hf : findPieceById pieces hd with
      | none =>
        simp only [loadStep, if_neg hp, hf]
        exact h
      | some piece =>
        simp only [loadStep, if_neg hp, hf]
        intro i
        rw [alookup_cons]
        by_cases hi : i = hd
        · rw [if_pos hi]
          have hpm := (findPieceById_mem hf).1
          have htl : 0 ≤ calculatePieceWeight piece +
              ((supportingIds pieces piece).map (alookup loads)).sum := by
            have hw1 : 0 ≤ calculatePieceWeight piece := hw piece hpm
            have hw2 : 0 ≤ ((supportingIds pieces piece).map (alookup loads)).sum := by
              refine List.sum_nonneg ?_
              intro x hx
              obtain ⟨j, _, hj⟩ := List.mem_map.mp hx
              rw [← hj]
              exact hl j
            linarith
          have hcap : 0 ≤ (materialStrength piece.material).baseCapacity *
              (piece.width * piece.depth) := by
            have h1 := baseCapacity_pos piece.material
            have h2 := (hdims piece hpm).1
            have h3 := (hdims piece hpm).2.2
            positivity
          constructor
          · exact le_min (by norm_num) (div_nonneg htl hcap)
          · exact min_le_left _ _
        · rw [if_neg hi]
          exact h i

theorem loadLoop_loads_nonneg (pieces : List Piece)
    (hw : ∀ p ∈ pieces, 0 ≤ calculatePieceWeight p) (n : Nat) :
    ∀ st, (∀ i, 0 ≤ alookup st.loads i) →
      ∀ i, 0 ≤ alookup (loadLoop pieces n st).loads i := by
  induction n with
  | zero => exact fun st h => h
  | succ n ih =>
    intro st h
    by_cases hq : st.queue = []
    · simp only [loadLoop, if_pos hq]
      exact h
    · simp only [loadLoop, if_neg hq]
      exact ih _ (loadStep_loads_nonneg pieces st hw h)

theorem loadLoop_stress_bounds (pieces : List Piece)
    (hdims : ∀ p ∈ pieces, 0 < p.width ∧ 0 < p.height ∧ 0 < p.depth)
    (hw : ∀ p ∈ pieces, 0 ≤ calculatePieceWeight p) (n : Nat) :
    ∀ st, (∀ i, 0 ≤ alookup st.loads i) →
      (∀ i, 0 ≤ alookup st.stress i ∧ alookup st.stress i ≤ 1) →
      ∀ i, 0 ≤ alookup (loadLoop pieces n st).stress i ∧
        alookup (loadLoop pieces n st).stress i ≤ 1 := by
  induction n with
  | zero => exact fun st _ h => h
  | succ n ih =>
    intro st hl h
    by_cases hq : st.queue = []
    · simp only [loadLoop, if_pos hq]
      exact h
    · simp only [loadLoop, if_neg hq]
      exact ih _ (loadStep_loads_nonneg pieces st hw hl)
        (loadStep_stress_bounds pieces st hdims hw hl h)

theorem calcLoad_loads_nonneg (pieces : List Piece)
    (hw : ∀ p ∈ pieces, 0 ≤ calculatePieceWeight p) :
    ∀ i, 0 ≤ alookup (calculateLoadDistribution pieces).loads i := by
  unfold calculateLoadDistribution
  refine loadLoop_loads_nonneg pieces hw (loadFuel pieces) (initLoadState pieces) ?_
  intro i
  simp [initLoadState, alookup]

theorem calcLoad_stress_bounds (pieces : List Piece)
    (hdims : ∀ p ∈ pieces, 0 < p.width ∧ 0 < p.height ∧ 0 < p.depth)
    (hw : ∀ p ∈ pieces, 0 ≤ calculatePieceWeight p) :
    ∀ i, 0 ≤ alookup (calculateLoadDistribution pieces).stress i ∧
      alookup (calculateLoadDistribution pieces).stress i ≤ 1 := by
  unfold calculateLoadDistribution
  refine loadLoop_stress_bounds pieces hdims hw (loadFuel pieces) (initLoadState pieces) ?_ ?_
  · intro i
    simp [initLoadState, alookup]
  · intro i
    constructor
    · simp [initLoadState, alookup]
    · simp [initLoadState, alookup]

/-! ### Locating a node in the built support map -/

theorem find?_map_pieceId (F : Piece → Node) (hF : ∀ q, (F q).piece = q)
    (l : List Piece) (hids : (l.map fun p => p.id).Nodup) {p : Piece} (hp : p ∈ l) :
    List.find? (fun n => n.piece.id = p.id) (l.map F) = some (F p) := by
  induction l with
  | nil => cases hp
  | cons a t ih =>
    rcases List.mem_cons.mp hp with rfl | hpt
    · rw [List.map_cons]
      exact List.find?_cons_of_pos _ (by simp [hF])
    · have hne : ¬ (a.id = p.id) := by
        intro hcontra
        have : p.id ∈ t.map fun q => q.id := List.mem_map.mpr ⟨p, hpt, rfl⟩
        rw [List.map_cons] at hids
        exact (List.nodup_cons.mp hids).1 (hcontra ▸ this)
      have ht : (t.map fun q => q.id).Nodup := by
        rw [List.map_cons] at hids
        exact (List.nodup_cons.mp hids).2
      rw [List.map_cons]
      rw [List.find?_cons_of_neg _ (by simp [hF, hne])]
      exact ih ht hpt

theorem nodeOf_analyzeSupportStructure {pieces : List Piece}
    (hids : (pieces.map fun p => p.id).Nodup) {p : Piece} (hp : p ∈ pieces) :
    nodeOf (analyzeSupportStructure pieces) p.id = some
      { piece := p
        supporting := supportingIds pieces p
        supportedBy := supportedByIds pieces p
        connections := connectionsOf pieces p
        totalLoad := alookup (calculateLoadDistribution pieces).loads p.id
        stressLevel := alookup (calculateLoadDistribution pieces).stress p.id } := by
  unfold nodeOf analyzeSupportStructure
  exact find?_map_pieceId _ (fun q => rfl) pieces hids hp

theorem mem_analyzeSupportStructure_of_nodeOf {pieces : List Piece} {i : String}
    {nd : Node} (h : nodeOf (analyzeSupportStructure pieces) i = some nd) :
    nd ∈ analyzeSupportStructure pieces := by
  unfold nodeOf at h
  exact List.mem_of_find?_eq_some h

/-! ### C1 — load conservation (amended) -/

/-- C1 (amended): after `calculateLoadDistribution` runs on a piece list with
unique ids whose inferred support graph is acyclic (witnessed by a rank
function decreasing along `supporting` edges), (1) every node is processed;
(2) every processed node's totalLoad equals its own weight plus the sum of
the final totalLoad over those entries of its `supporting` array that were
processed before it (the entries after it in the processed list) — the FIFO
queue order does NOT guarantee that all supporting dependents are processed
first, so the full-sum equality of the original claim can fail; and (3) when
additionally all piece weights are nonnegative — this condition guards only
this clause — every node with empty `supportedBy` has totalLoad ≥ its own
weight. -/
theorem load_conservation (pieces : List Piece)
    (hids : (pieces.map fun p => p.id).Nodup)
    (rank : String → Nat)
    (hrank : ∀ p ∈ pieces, ∀ s ∈ supportingIds pieces p, rank s < rank p.id) :
    (∀ p ∈ pieces, p.id ∈ (calculateLoadDistribution pieces).processed) ∧
    (∀ pre i suf, (calculateLoadDistribution pieces).processed = pre ++ i :: suf →
      alookup (calculateLoadDistribution pieces).loads i = weightOf pieces i +
        (((supIdsOf pieces i).filter fun s => decide (s ∈ suf)).map
          (alookup (calculateLoadDistribution pieces).loads)).sum) ∧
    ((∀ p ∈ pieces, 0 ≤ calculatePieceWeight p) →
      ∀ p ∈ pieces, supportedByIds pieces p = [] →
        calculatePieceWeight p ≤ alookup (calculateLoadDistribution pieces).loads p.id) := by
  refine ⟨calcLoad_all_processed pieces hids rank hrank,
    (calcLoad_inv pieces).2.2.2.1, ?_⟩
  intro hw p hp _
  have hproc := calcLoad_all_processed pieces hids rank hrank p hp
  obtain ⟨pre, suf, hdecomp⟩ := List.append_of_mem hproc
  have heq := (calcLoad_inv pieces).2.2.2.1 pre p.id suf hdecomp
  have hwt : weightOf pieces p.id = calculatePieceWeight p := by
    unfold weightOf
    rw [findPieceById_self hids hp]
  rw [heq, hwt]
  have hsum : 0 ≤ (((supIdsOf pieces p.id).filter fun s => decide (s ∈ suf)).map
      (alookup (calculateLoadDistribution pieces).loads)).sum := by
    refine List.sum_nonneg ?_
    intro x hx
    obtain ⟨j, _, hj⟩ := List.mem_map.mp hx
    rw [← hj]
    exact calcLoad_loads_nonneg pieces hw j
  linarith

/-! ### C6 — stress boundedness (amended) -/

/-- C6 (amended): after `analyzeSupportStructure` on pieces with positive
dimensions, every node's stressLevel lies in [0, 1] PROVIDED every piece's
computed weight is nonnegative.  (A hollow piece with exactly two sub-1.5″
dimensions has negative weight and produces a negative stressLevel, so the
extra weight hypothesis is necessary; the upper clamp at 1 always holds.) -/
theorem stress_bounds (pieces : List Piece)
    (hdims : ∀ p ∈ pieces, 0 < p.width ∧ 0 < p.height ∧ 0 < p.depth)
    (hw : ∀ p ∈ pieces, 0 ≤ calculatePieceWeight p) :
    ∀ nd ∈ analyzeSupportStructure pieces, 0 ≤ nd.stressLevel ∧ nd.stressLevel ≤ 1 := by
  intro nd hnd
  unfold analyzeSupportStructure at hnd
  obtain ⟨p, _, hpe⟩ := List.mem_map.mp hnd
  rw [← hpe]
  exact calcLoad_stress_bounds pieces hdims hw p.id

/-! ### Evaluation lemmas for the two-box stack and the thin hollow piece -/

theorem sA_id : stackBase.id = "a" := rfl
theorem sB_id : stackTop.id = "b" := rfl

theorem is_ab : isSupporting stackBase stackTop = true := by
  simp [isSupporting, calculateOverlap, stackBase, stackTop, mkBox]; try norm_num
theorem is_ba : isSupporting stackTop stackBase = false := by
  simp [isSupporting, calculateOverlap, stackBase, stackTop, mkBox]; try norm_num

theorem w_a : calculatePieceWeight stackBase = 18/5 := by
  simp [calculatePieceWeight, calcVolume, stackBase, mkBox, materialStrength,
    round10, jsRound]
  norm_num
theorem w_b : calculatePieceWeight stackTop = 18/5 := by
  simp [calculatePieceWeight, calcVolume, stackTop, mkBox, materialStrength,
    round10, jsRound]
  norm_num

theorem sa_sup : supportingIds [stackBase, stackTop] stackBase = ["b"] := by
  simp [supportingIds, List.filter, is_ab, sA_id, sB_id]
theorem sb_sup : supportingIds [stackBase, stackTop] stackTop = [] := by
  simp [supportingIds, List.filter, is_ba, sA_id, sB_id]
theorem sa_by : supportedByIds [stackBase, stackTop] stackBase = [] := by
  simp [supportedByIds, List.filter, is_ba, sA_id, sB_id]
theorem sb_by : supportedByIds [stackBase, stackTop] stackTop = ["a"] := by
  simp [supportedByIds, List.filter, is_ab, sA_id, sB_id]

theorem stack_nodup : (stackPs.map fun p => p.id).Nodup := by
  simp [stackPs, sA_id, sB_id]

theorem stack_rank : ∀ p ∈ stackPs, ∀ s ∈ supportingIds stackPs p,
    stackRank s < stackRank p.id := by
  intro p hp s hs
  simp only [stackPs] at hs
  simp only [stackPs, List.mem_cons, List.not_mem_nil, or_false] at hp
  rcases hp with rfl | rfl
  · rw [sa_sup] at hs
    simp only [List.mem_cons, List.not_mem_nil, or_false] at hs
    rcases hs with rfl
    simp [stackRank, sA_id]
  · rw [sb_sup] at hs
    simp at hs

theorem stack_weights_nonneg : ∀ p ∈ stackPs, 0 ≤ calculatePieceWeight p := by
  intro p hp
  simp only [stackPs, List.mem_cons, List.not_mem_nil, or_false] at hp
  rcases hp with rfl | rfl
  · rw [w_a]; norm_num
  · rw [w_b]; norm_num

theorem stack_dims_pos : ∀ p ∈ stackPs, 0 < p.width ∧ 0 < p.height ∧ 0 < p.depth := by
  intro p hp
  simp only [stackPs, List.mem_cons, List.not_mem_nil, or_false] at hp
  rcases hp with rfl | rfl <;>
    refine ⟨by norm_num [stackBase, stackTop, mkBox], by norm_num [stackBase, stackTop, mkBox],
      by norm_num [stackBase, stackTop, mkBox]⟩

/-- C1 witness: on the two-box stack (unique ids, acyclic by `stackRank`,
nonnegative weights), the base — which has empty `supportedBy` — carries at
least its own weight. -/
theorem load_conservation_witness :
    calculatePieceWeight stackBase ≤
      alookup (calculateLoadDistribution stackPs).loads stackBase.id :=
  (load_conservation stackPs stack_nodup stackRank stack_rank).2.2
    stack_weights_nonneg stackBase (by simp [stackPs])
    (by simp only [stackPs]; exact sa_by)

/-- C6 witness: on the two-box stack, the base node's stressLevel lies in
[0, 1]. -/
theorem stress_bounds_witness :
    0 ≤ ((nodeOf (analyzeSupportStructure stackPs) stackBase.id).getD default).stressLevel ∧
    ((nodeOf (analyzeSupportStructure stackPs) stackBase.id).getD default).stressLevel ≤ 1 := by
  have hn := @nodeOf_analyzeSupportStructure stackPs stack_nodup stackBase
    (show stackBase ∈ stackPs by simp [stackPs])
  rw [hn]
  simp only [Option.getD_some]
  exact stress_bounds stackPs stack_dims_pos stack_weights_nonneg _
    (mem_analyzeSupportStructure_of_nodeOf hn)

/-! ### Trace of the analysis on the thin hollow piece -/

theorem hT_id : hollowThin.id = "h" := rfl
theorem hT_w : hollowThin.width = 1/10 := rfl
theorem hT_d : hollowThin.depth = 100 := rfl
theorem hT_m : hollowThin.material = "wood" := rfl

theorem w_h : calculatePieceWeight hollowThin = -24/5 := by
  norm_num [hollowThin, calcVolume, calculatePieceWeight, wallThickness, materialStrength,
    round10, jsRound]

theorem s_h : supportingIds [hollowThin] hollowThin = [] := by
  simp [supportingIds, List.filter, hT_id]
theorem b_h : supportedByIds [hollowThin] hollowThin = [] := by
  simp [supportedByIds, List.filter, hT_id]
theorem c_h : connectionsOf [hollowThin] hollowThin = [] := by
  simp [connectionsOf, List.filter, hT_id]
theorem f_h : findPieceById [hollowThin] "h" = some hollowThin := by
  simp [findPieceById, List.find?, hT_id]

theorem st0h : initLoadState [hollowThin] =
    { queue := ["h"], processed := [], loads := [], stress := [] } := by
  norm_num [initLoadState, List.filter_cons, s_h, hT_id]
  try simp

theorem e1h : loadStep [hollowThin]
    { queue := ["h"], processed := [], loads := [], stress := [] } =
    { queue := [], processed := ["h"], loads := [("h", -24/5)],
      stress := [("h", -2/625)] } := by
  norm_num [loadStep, f_h, w_h, s_h, b_h, alookup, min_def, materialStrength,
    hT_w, hT_d, hT_m, List.filter_cons, List.find?]
  try simp
  try norm_num
  try simp

theorem loadLoop_succ (pieces : List Piece) (n : Nat) (st : LoadState) :
    loadLoop pieces (n + 1) st =
      if st.queue = [] then st else loadLoop pieces n (loadStep pieces st) := rfl

theorem traceH : calculateLoadDistribution [hollowThin] =
    { queue := [], processed := ["h"], loads := [("h", -24/5)],
      stress := [("h", -2/625)] } := by
  have h4 : loadFuel [hollowThin] = 4 := by norm_num [loadFuel]
  rw [calculateLoadDistribution, h4, st0h]
  rw [show (4 : Nat) = 3 + 1 from rfl, loadLoop_succ, if_neg (by simp), e1h]
  rw [show (3 : Nat) = 2 + 1 from rfl, loadLoop_succ, if_pos rfl]

theorem analyzeH : analyzeSupportStructure [hollowThin] =
    [{ piece := hollowThin, supporting := [], supportedBy := [], connections := []
       totalLoad := -24/5, stressLevel := -2/625 }] := by
  simp only [analyzeSupportStructure]
  rw [traceH]
  simp [s_h, b_h, c_h, alookup, List.find?, hT_id]

/-- C6 counterexample: `hollowThin` has positive dimensions, yet after
`analyzeSupportStructure` its node's stressLevel is −2/625 < 0 — the piece's
computed weight is negative (two dimensions below twice the wall thickness),
and `min 1 (totalLoad / maxCapacity)` has no lower clamp. -/
theorem stress_bounds_cx :
    (0 < hollowThin.width ∧ 0 < hollowThin.height ∧ 0 < hollowThin.depth) ∧
    ∃ nd ∈ analyzeSupportStructure [hollowThin], nd.stressLevel < 0 := by
  constructor
  · refine ⟨?_, ?_, ?_⟩ <;> norm_num [hollowThin]
  · rw [analyzeH]
    refine ⟨_, List.mem_singleton.mpr rfl, ?_⟩
    norm_num

/-! ### C7 and C8 — support edges and graph symmetry -/

theorem isSupporting_iff (l u : Piece) :
    isSupporting l u = true ↔
      (|l.y + l.height - u.y| ≤ 1 ∧
       2 ≤ calculateOverlap (l.x - l.width / 2) (l.x + l.width / 2)
         (u.x - u.width / 2) (u.x + u.width / 2) ∧
       2 ≤ calculateOverlap (l.z - l.depth / 2) (l.z + l.depth / 2)
         (u.z - u.depth / 2) (u.z + u.depth / 2)) := by
  simp only [isSupporting]
  by_cases h : 1 < |l.y + l.height - u.y|
  · rw [if_pos h]
    constructor
    · intro hc
      exact absurd hc Bool.false_ne_true
    · rintro ⟨h1, _, _⟩
      exact absurd h (not_lt.mpr h1)
  · rw [if_neg h]
    rw [Bool.and_eq_true, decide_eq_true_eq, decide_eq_true_eq]
    constructor
    · rintro ⟨h2, h3⟩
      exact ⟨not_lt.mp h, h2, h3⟩
    · rintro ⟨_, h2, h3⟩
      exact ⟨h2, h3⟩

/-- C7: for distinct pieces in a unique-id list, `analyzeSupportStructure`
records "lower supports upper" — an entry in lower's `supporting`, upper's
`supportedBy` and a contact record in lower's `connections` — exactly when
the top of the lower piece is within 1 inch of the upper piece's bottom and
the X- and Z-extent overlaps are both at least 2 inches. -/
theorem support_edge_rule (pieces : List Piece)
    (hids : (pieces.map fun p => p.id).Nodup)
    (l u : Piece) (hl : l ∈ pieces) (hu : u ∈ pieces) (hne : l ≠ u)
    (nl nu : Node)
    (hnl : nodeOf (analyzeSupportStructure pieces) l.id = some nl)
    (hnu : nodeOf (analyzeSupportStructure pieces) u.id = some nu) :
    (u.id ∈ nl.supporting ∧ l.id ∈ nu.supportedBy ∧
      ∃ c ∈ nl.connections, c.upperPieceId = u.id) ↔
    (|l.y + l.height - u.y| ≤ 1 ∧
     2 ≤ calculateOverlap (l.x - l.width / 2) (l.x + l.width / 2)
       (u.x - u.width / 2) (u.x + u.width / 2) ∧
     2 ≤ calculateOverlap (l.z - l.depth / 2) (l.z + l.depth / 2)
       (u.z - u.depth / 2) (u.z + u.depth / 2)) := by
  have hnl2 := nodeOf_analyzeSupportStructure hids hl
  rw [hnl] at hnl2
  have hnl3 := Option.some.inj hnl2
  have hnu2 := nodeOf_analyzeSupportStructure hids hu
  rw [hnu] at hnu2
  have hnu3 := Option.some.inj hnu2
  subst hnl3
  subst hnu3
  have hidne : u.id ≠ l.id := fun hc => hne ((id_injective hids hu hl hc).symm)
  constructor
  · rintro ⟨h1, _, _⟩
    obtain ⟨u2, hu2, hui, _, hsup⟩ := mem_supportingIds_elim h1
    have hu2u : u2 = u := id_injective hids hu2 hu hui
    rw [hu2u] at hsup
    exact (isSupporting_iff l u).mp hsup
  · intro hgeo
    have hsup : isSupporting l u = true := (isSupporting_iff l u).mpr hgeo
    refine ⟨mem_supportingIds_intro hu hidne hsup,
      mem_supportedByIds_intro hl (fun hc => hidne hc.symm) hsup, ?_⟩
    refine ⟨calculateConnectionPoint l u, ?_, rfl⟩
    unfold connectionsOf
    exact List.mem_map.mpr ⟨u, List.mem_filter.mpr ⟨hu, by simp [hidne, hsup]⟩, rfl⟩

/-- C7 witness: the two stacked boxes produce the base→top support entries. -/
theorem support_edge_rule_witness :
    stackTop.id ∈
      ((nodeOf (analyzeSupportStructure stackPs) stackBase.id).getD default).supporting ∧
    stackBase.id ∈
      ((nodeOf (analyzeSupportStructure stackPs) stackTop.id).getD default).supportedBy := by
  have hna := @nodeOf_analyzeSupportStructure stackPs stack_nodup stackBase
    (show stackBase ∈ stackPs by simp [stackPs])
  have hnb := @nodeOf_analyzeSupportStructure stackPs stack_nodup stackTop
    (show stackTop ∈ stackPs by simp [stackPs])
  have hne : stackBase ≠ stackTop := by
    intro hc
    have h2 := congrArg Piece.id hc
    rw [sA_id, sB_id] at h2
    exact absurd h2 (by simp)
  have h := support_edge_rule stackPs stack_nodup stackBase stackTop
    (by simp [stackPs]) (by simp [stackPs]) hne
    ((nodeOf (analyzeSupportStructure stackPs) stackBase.id).getD default)
    ((nodeOf (analyzeSupportStructure stackPs) stackTop.id).getD default)
    (by rw [hna]; rfl) (by rw [hnb]; rfl)
  have hgeo := h.mpr (by norm_num [stackBase, stackTop, mkBox, calculateOverlap])
  exact ⟨hgeo.1, hgeo.2.1⟩

/-- C8: in every support map built from a unique-id piece list, `supporting`
and `supportedBy` are mutually inverse (A supports B iff B is supported by
A), and no node lists its own id in either array. -/
theorem support_graph_symmetry (pieces : List Piece)
    (hids : (pieces.map fun p => p.id).Nodup) :
    (∀ p ∈ pieces, ∀ q ∈ pieces, ∀ np nq,
      nodeOf (analyzeSupportStructure pieces) p.id = some np →
      nodeOf (analyzeSupportStructure pieces) q.id = some nq →
      (q.id ∈ np.supporting ↔ p.id ∈ nq.supportedBy)) ∧
    (∀ p ∈ pieces, ∀ np, nodeOf (analyzeSupportStructure pieces) p.id = some np →
      p.id ∉ np.supporting ∧ p.id ∉ np.supportedBy) := by
  constructor
  · intro p hp q hq np nq hnp hnq
    have hnp2 := nodeOf_analyzeSupportStructure hids hp
    rw [hnp] at hnp2
    have hnp3 := Option.some.inj hnp2
    have hnq2 := nodeOf_analyzeSupportStructure hids hq
    rw [hnq] at hnq2
    have hnq3 := Option.some.inj hnq2
    subst hnp3
    subst hnq3
    constructor
    · intro h1
      obtain ⟨q2, hq2, hqi, hqne, hsup⟩ := mem_supportingIds_elim h1
      have : q2 = q := id_injective hids hq2 hq hqi
      subst this
      exact mem_supportedByIds_intro hp (fun hc => hqne hc.symm) hsup
    · intro h1
      obtain ⟨p2, hp2, hpi, hpne, hsup⟩ := mem_supportedByIds_elim h1
      have : p2 = p := id_injective hids hp2 hp hpi
      subst this
      exact mem_supportingIds_intro hq (fun hc => hpne hc.symm) hsup
  · intro p hp np hnp
    have hnp2 := nodeOf_analyzeSupportStructure hids hp
    rw [hnp] at hnp2
    have hnp3 := Option.some.inj hnp2
    subst hnp3
    constructor
    · intro h1
      obtain ⟨u2, _, hui, hune, _⟩ := mem_supportingIds_elim h1
      exact hune hui
    · intro h1
      obtain ⟨l2, _, hli, hlne, _⟩ := mem_supportedByIds_elim h1
      exact hlne hli

/-- C8 witness: on the two stacked boxes, the base's `supporting` entry for
the top matches the top's `supportedBy` entry for the base, and the base
lists itself nowhere. -/
theorem support_graph_symmetry_witness :
    (stackTop.id ∈
        ((nodeOf (analyzeSupportStructure stackPs) stackBase.id).getD default).supporting ↔
      stackBase.id ∈
        ((nodeOf (analyzeSupportStructure stackPs) stackTop.id).getD default).supportedBy) ∧
    stackBase.id ∉
      ((nodeOf (analyzeSupportStructure stackPs) stackBase.id).getD default).supporting ∧
    stackBase.id ∉
      ((nodeOf (analyzeSupportStructure stackPs) stackBase.id).getD default).supportedBy := by
  have hna := @nodeOf_analyzeSupportStructure stackPs stack_nodup stackBase
    (show stackBase ∈ stackPs by simp [stackPs])
  have hnb := @nodeOf_analyzeSupportStructure stackPs stack_nodup stackTop
    (show stackTop ∈ stackPs by simp [stackPs])
  have h := support_graph_symmetry stackPs stack_nodup
  refine ⟨h.1 stackBase (by simp [stackPs]) stackTop (by simp [stackPs])
    ((nodeOf (analyzeSupportStructure stackPs) stackBase.id).getD default)
    ((nodeOf (analyzeSupportStructure stackPs) stackTop.id).getD default)
    (by rw [hna]; rfl) (by rw [hnb]; rfl), ?_⟩
  exact h.2 stackBase (by simp [stackPs])
    ((nodeOf (analyzeSupportStructure stackPs) stackBase.id).getD default)
    (by rw [hna]; rfl)

/-! ### C3 and C4 — the point-load tester -/

/-- C3 (amended): in `testCatWeights`, every candidate resting surface's
`canHoldCat` is true iff its recorded load plus the heaviest cat is strictly
below capacity/safetyFactor; a weak point is recorded for a candidate iff the
load plus the heaviest cat strictly EXCEEDS capacity/safetyFactor (so a
candidate exactly at the threshold fails `canHoldCat` yet records no weak
point); and `passed` is true iff no candidate strictly exceeds the
threshold (not "iff no candidate failed `canHoldCat`"). -/
theorem testCatWeights_characterization (pieces : List Piece) (catWeights : List ℚ)
    (m : List Node) (hids : (pieces.map fun p => p.id).Nodup)
    (_hcw : catWeights ≠ []) :
    ((testCatWeights pieces catWeights m).passed = true ↔
      ∀ s ∈ restingSpots pieces,
        ¬ (spotCapacity s / 2 < spotLoad m s + listMax catWeights)) ∧
    (∀ s ∈ restingSpots pieces, ∃ c,
      (s.id, c) ∈ (testCatWeights pieces catWeights m).catDistribution ∧
      (c.canHoldCat = true ↔ spotLoad m s + listMax catWeights < spotCapacity s / 2)) ∧
    (∀ s ∈ restingSpots pieces,
      ((∃ wp ∈ (testCatWeights pieces catWeights m).weakPoints, wp.pieceId = s.id) ↔
        spotCapacity s / 2 < spotLoad m s + listMax catWeights)) := by
  refine ⟨?_, ?_, ?_⟩
  · simp only [testCatWeights, List.all_eq_true]
    constructor
    · intro h s hs hlt
      have h2 := h s hs
      rw [Bool.not_eq_eq_eq_not, Bool.not_true, decide_eq_false_iff_not] at h2
      exact h2 hlt
    · intro hall s hs
      rw [Bool.not_eq_eq_eq_not, Bool.not_true, decide_eq_false_iff_not]
      exact hall s hs
  · intro s hs
    refine ⟨{ name := s.name, currentLoad := spotLoad m s, capacity := spotCapacity s
              canHoldCat := decide (spotLoad m s + listMax catWeights < spotCapacity s / 2)
              maxCatWeight := max 0 (spotCapacity s / 2 - spotLoad m s) }, ?_, ?_⟩
    · simp only [testCatWeights]
      exact List.mem_map.mpr ⟨s, hs, rfl⟩
    · simp only [decide_eq_true_eq]
  · intro s hs
    constructor
    · rintro ⟨wp, hwp, hid⟩
      simp only [testCatWeights] at hwp
      rw [List.mem_filterMap] at hwp
      obtain ⟨s2, hs2, hsome⟩ := hwp
      by_cases hcond : spotCapacity s2 / 2 < spotLoad m s2 + listMax catWeights
      · rw [if_pos hcond] at hsome
        have hwp2 := Option.some.inj hsome
        rw [← hwp2] at hid
        have hsid : s2.id = s.id := hid
        have hs2p : s2 ∈ pieces := List.mem_of_mem_filter hs2
        have hsp : s ∈ pieces := List.mem_of_mem_filter hs
        have : s2 = s := id_injective hids hs2p hsp hsid
        rw [← this]
        exact hcond
      · rw [if_neg hcond] at hsome
        cases hsome
    · intro hlt
      refine ⟨{ pieceId := s.id, pieceName := s.name, issueCatWeight := listMax catWeights
                currentCapacity := jsRound (spotCapacity s / 2 - spotLoad m s)
                required := listMax catWeights }, ?_, rfl⟩
      simp only [testCatWeights]
      exact List.mem_filterMap.mpr ⟨s, hs, by rw [if_pos hlt]⟩

/-- C4 (amended): every weak point recorded by `testCatWeights` belongs to a
candidate resting surface and carries
`currentCapacity = round(capacity/safetyFactor − totalLoad)` — rounded but
NOT floored at 0, so it is negative whenever the existing load already
exceeds capacity/safetyFactor — together with `required = max(catWeights)`. -/
theorem weakPoint_currentCapacity (pieces : List Piece) (catWeights : List ℚ)
    (m : List Node) (_hcw : catWeights ≠ []) :
    ∀ wp ∈ (testCatWeights pieces catWeights m).weakPoints,
      ∃ s ∈ restingSpots pieces, wp.pieceId = s.id ∧
        wp.currentCapacity = jsRound (spotCapacity s / 2 - spotLoad m s) ∧
        spotCapacity s / 2 < spotLoad m s + listMax catWeights ∧
        wp.required = listMax catWeights := by
  intro wp hwp
  simp only [testCatWeights] at hwp
  rw [List.mem_filterMap] at hwp
  obtain ⟨s, hs, hsome⟩ := hwp
  by_cases hcond : spotCapacity s / 2 < spotLoad m s + listMax catWeights
  · rw [if_pos hcond] at hsome
    have hwp2 := Option.some.inj hsome
    exact ⟨s, hs, by rw [← hwp2], by rw [← hwp2], hcond, by rw [← hwp2]⟩
  · rw [if_neg hcond] at hsome
    cases hsome

/-! ### Traces of the analysis on the cat-test fixtures -/

theorem pg_id : platGood.id = "pg" := rfl
theorem pg_w : platGood.width = 24 := rfl
theorem pg_d : platGood.depth = 16 := rfl
theorem pg_m : platGood.material = "wood" := rfl

theorem w_pg : calculatePieceWeight platGood = 36/5 := by
  simp [calculatePieceWeight, calcVolume, platGood, materialStrength, round10, jsRound]
  norm_num

theorem s_pg : supportingIds [platGood] platGood = [] := by
  simp [supportingIds, List.filter, pg_id]
theorem b_pg : supportedByIds [platGood] platGood = [] := by
  simp [supportedByIds, List.filter, pg_id]
theorem f_pg : findPieceById [platGood] "pg" = some platGood := by
  simp [findPieceById, List.find?, pg_id]

theorem st0g : initLoadState [platGood] =
    { queue := ["pg"], processed := [], loads := [], stress := [] } := by
  norm_num [initLoadState, List.filter_cons, s_pg, pg_id]
  try simp

theorem e1g : loadStep [platGood]
    { queue := ["pg"], processed := [], loads := [], stress := [] } =
    { queue := [], processed := ["pg"], loads := [("pg", 36/5)],
      stress := [("pg", 1/8000)] } := by
  norm_num [loadStep, f_pg, w_pg, s_pg, b_pg, alookup, min_def, materialStrength,
    pg_w, pg_d, pg_m, List.filter_cons, List.find?]
  try simp
  try norm_num
  try simp

theorem traceG : calculateLoadDistribution [platGood] =
    { queue := [], processed := ["pg"], loads := [("pg", 36/5)],
      stress := [("pg", 1/8000)] } := by
  have h4 : loadFuel [platGood] = 4 := by norm_num [loadFuel]
  rw [calculateLoadDistribution, h4, st0g]
  rw [show (4 : Nat) = 3 + 1 from rfl, loadLoop_succ, if_neg (by simp), e1g]
  rw [show (3 : Nat) = 2 + 1 from rfl, loadLoop_succ, if_pos rfl]

theorem analyzeG : analyzeSupportStructure [platGood] =
    [{ piece := platGood, supporting := [], supportedBy := []
       connections := connectionsOf [platGood] platGood
       totalLoad := 36/5, stressLevel := 1/8000 }] := by
  simp only [analyzeSupportStructure]
  rw [traceG]
  simp [s_pg, b_pg, alookup, List.find?, pg_id]

theorem pb_id : platBoundary.id = "p1" := rfl
theorem pb_w : platBoundary.width = 1 := rfl
theorem pb_d : platBoundary.depth = 1 := rfl
theorem pb_m : platBoundary.material = "wood" := rfl

theorem w_pb : calculatePieceWeight platBoundary = 1/2 := by
  simp [calculatePieceWeight, calcVolume, platBoundary, materialStrength, round10, jsRound]
  norm_num

theorem s_pb : supportingIds [platBoundary] platBoundary = [] := by
  simp [supportingIds, List.filter, pb_id]
theorem b_pb : supportedByIds [platBoundary] platBoundary = [] := by
  simp [supportedByIds, List.filter, pb_id]
theorem f_pb : findPieceById [platBoundary] "p1" = some platBoundary := by
  simp [findPieceById, List.find?, pb_id]

theorem st0b : initLoadState [platBoundary] =
    { queue := ["p1"], processed := [], loads := [], stress := [] } := by
  norm_num [initLoadState, List.filter_cons, s_pb, pb_id]
  try simp

theorem e1b : loadStep [platBoundary]
    { queue := ["p1"], processed := [], loads := [], stress := [] } =
    { queue := [], processed := ["p1"], loads := [("p1", 1/2)],
      stress := [("p1", 1/300)] } := by
  norm_num [loadStep, f_pb, w_pb, s_pb, b_pb, alookup, min_def, materialStrength,
    pb_w, pb_d, pb_m, List.filter_cons, List.find?]
  try simp
  try norm_num
  try simp

theorem traceB : calculateLoadDistribution [platBoundary] =
    { queue := [], processed := ["p1"], loads := [("p1", 1/2)],
      stress := [("p1", 1/300)] } := by
  have h4 : loadFuel [platBoundary] = 4 := by norm_num [loadFuel]
  rw [calculateLoadDistribution, h4, st0b]
  rw [show (4 : Nat) = 3 + 1 from rfl, loadLoop_succ, if_neg (by simp), e1b]
  rw [show (3 : Nat) = 2 + 1 from rfl, loadLoop_succ, if_pos rfl]

theorem analyzeB : analyzeSupportStructure [platBoundary] =
    [{ piece := platBoundary, supporting := [], supportedBy := []
       connections := connectionsOf [platBoundary] platBoundary
       totalLoad := 1/2, stressLevel := 1/300 }] := by
  simp only [analyzeSupportStructure]
  rw [traceB]
  simp [s_pb, b_pb, alookup, List.find?, pb_id]

theorem fs_id : fabSpot.id = "spot" := rfl
theorem fs_w : fabSpot.width = 2 := rfl
theorem fs_d : fabSpot.depth = 2 := rfl
theorem fs_m : fabSpot.material = "fabric" := rfl
theorem bb_id : bigBox.id = "big" := rfl
theorem bb_w : bigBox.width = 40 := rfl
theorem bb_d : bigBox.depth = 40 := rfl
theorem bb_m : bigBox.material = "wood" := rfl

theorem w_fs : calculatePieceWeight fabSpot = 0 := by
  simp [calculatePieceWeight, calcVolume, fabSpot, materialStrength, round10, jsRound]
  norm_num
theorem w_bb : calculatePieceWeight bigBox = 1200 := by
  simp [calculatePieceWeight, calcVolume, bigBox, mkBox, materialStrength, round10, jsRound]
  norm_num

theorem is_fs_bb : isSupporting fabSpot bigBox = true := by
  simp [isSupporting, calculateOverlap, fabSpot, bigBox, mkBox]; try norm_num
theorem is_bb_fs : isSupporting bigBox fabSpot = false := by
  simp [isSupporting, calculateOverlap, fabSpot, bigBox, mkBox]; try norm_num

theorem s_fs : supportingIds [fabSpot, bigBox] fabSpot = ["big"] := by
  simp [supportingIds, List.filter, is_fs_bb, fs_id, bb_id]
theorem s_bb : supportingIds [fabSpot, bigBox] bigBox = [] := by
  simp [supportingIds, List.filter, is_bb_fs, fs_id, bb_id]
theorem b_fs : supportedByIds [fabSpot, bigBox] fabSpot = [] := by
  simp [supportedByIds, List.filter, is_bb_fs, fs_id, bb_id]
theorem b_bb : supportedByIds [fabSpot, bigBox] bigBox = ["spot"] := by
  simp [supportedByIds, List.filter, is_fs_bb, fs_id, bb_id]
theorem f_fs : findPieceById [fabSpot, bigBox] "spot" = some fabSpot := by
  simp [findPieceById, List.find?, fs_id]
theorem f_bb : findPieceById [fabSpot, bigBox] "big" = some bigBox := by
  simp [findPieceById, List.find?, fs_id, bb_id]

theorem st0c : initLoadState [fabSpot, bigBox] =
    { queue := ["big"], processed := [], loads := [], stress := [] } := by
  norm_num [initLoadState, List.filter_cons, s_fs, s_bb, fs_id, bb_id]
  try simp

theorem e1c : loadStep [fabSpot, bigBox]
    { queue := ["big"], processed := [], loads := [], stress := [] } =
    { queue := ["spot"], processed := ["big"], loads := [("big", 1200)],
      stress := [("big", 1/200)] } := by
  norm_num [loadStep, f_bb, w_bb, s_bb, b_bb, alookup, min_def, materialStrength,
    bb_w, bb_d, bb_m, List.filter_cons, List.find?]
  try simp
  try norm_num
  try simp

theorem e2c : loadStep [fabSpot, bigBox]
    { queue := ["spot"], processed := ["big"], loads := [("big", 1200)],
      stress := [("big", 1/200)] } =
    { queue := [], processed := ["spot", "big"],
      loads := [("spot", 1200), ("big", 1200)],
      stress := [("spot", 1), ("big", 1/200)] } := by
  norm_num [loadStep, f_fs, w_fs, s_fs, b_fs, alookup, min_def, materialStrength,
    fs_w, fs_d, fs_m, List.filter_cons, List.find?]
  try simp
  try norm_num
  try simp

theorem traceC : calculateLoadDistribution [fabSpot, bigBox] =
    { queue := [], processed := ["spot", "big"],
      loads := [("spot", 1200), ("big", 1200)],
      stress := [("spot", 1), ("big", 1/200)] } := by
  have h9 : loadFuel [fabSpot, bigBox] = 9 := by norm_num [loadFuel]
  rw [calculateLoadDistribution, h9, st0c]
  rw [show (9 : Nat) = 8 + 1 from rfl, loadLoop_succ, if_neg (by simp), e1c]
  rw [show (8 : Nat) = 7 + 1 from rfl, loadLoop_succ, if_neg (by simp), e2c]
  rw [show (7 : Nat) = 6 + 1 from rfl, loadLoop_succ, if_pos rfl]

theorem analyzeC : analyzeSupportStructure [fabSpot, bigBox] =
    [{ piece := fabSpot, supporting := ["big"], supportedBy := []
       connections := connectionsOf [fabSpot, bigBox] fabSpot
       totalLoad := 1200, stressLevel := 1 },
     { piece := bigBox, supporting := [], supportedBy := ["spot"]
       connections := connectionsOf [fabSpot, bigBox] bigBox
       totalLoad := 1200, stressLevel := 1/200 }] := by
  simp only [analyzeSupportStructure]
  rw [traceC]
  simp [s_fs, s_bb, b_fs, b_bb, alookup, List.find?, fs_id, bb_id]

/-! ### Resting-spot and result evaluations for C3 / C4 -/

theorem rs_pg : isRestingSpot platGood = true := by decide
theorem rs_pb : isRestingSpot platBoundary = true := by decide
theorem rs_fs : isRestingSpot fabSpot = true := by decide
theorem rs_bb : isRestingSpot bigBox = false := rfl

theorem restingSpots_pg : restingSpots [platGood] = [platGood] := by
  simp [restingSpots, List.filter, rs_pg]
theorem restingSpots_pb : restingSpots [platBoundary] = [platBoundary] := by
  simp [restingSpots, List.filter, rs_pb]
theorem restingSpots_c4 : restingSpots [fabSpot, bigBox] = [fabSpot] := by
  simp [restingSpots, List.filter, rs_fs, rs_bb]

theorem spotLoad_pg : spotLoad (analyzeSupportStructure [platGood]) platGood = 36/5 := by
  rw [analyzeG]
  simp [spotLoad, nodeOf, List.find?, pg_id]

theorem spotLoad_pb :
    spotLoad (analyzeSupportStructure [platBoundary]) platBoundary = 1/2 := by
  rw [analyzeB]
  simp [spotLoad, nodeOf, List.find?, pb_id]

theorem spotLoad_fs : spotLoad (analyzeSupportStructure [fabSpot, bigBox]) fabSpot = 1200 := by
  rw [analyzeC]
  simp [spotLoad, nodeOf, List.find?, fs_id]

/-- C3 witness: the spec's capacity-pass scenario — a lone 24×0.75×16 wood
platform with one 15 lb cat — passes the test. -/
theorem testCatWeights_characterization_witness :
    (testCatWeights [platGood] [15] (analyzeSupportStructure [platGood])).passed = true := by
  have h := testCatWeights_characterization [platGood] [15]
    (analyzeSupportStructure [platGood]) (by simp) (by simp)
  refine h.1.mpr ?_
  intro s hs
  rw [restingSpots_pg] at hs
  simp only [List.mem_singleton] at hs
  subst hs
  rw [spotLoad_pg]
  norm_num [spotCapacity, pg_m, pg_w, pg_d, materialStrength, listMax, List.foldl]

theorem pb_weakPoints_eval :
    (testCatWeights [platBoundary] [149/2]
      (analyzeSupportStructure [platBoundary])).weakPoints = [] := by
  simp only [testCatWeights]
  rw [restingSpots_pb]
  norm_num [List.filterMap, spotLoad_pb, spotCapacity, pb_m, pb_w, pb_d,
    materialStrength, listMax, List.foldl]

theorem pb_passed_eval :
    (testCatWeights [platBoundary] [149/2]
      (analyzeSupportStructure [platBoundary])).passed = true := by
  simp only [testCatWeights]
  rw [restingSpots_pb]
  norm_num [List.all, spotLoad_pb, spotCapacity, pb_m, pb_w, pb_d,
    materialStrength, listMax, List.foldl]

theorem pb_catDistribution_eval :
    (testCatWeights [platBoundary] [149/2]
      (analyzeSupportStructure [platBoundary])).catDistribution =
    [("p1", { name := "plat", currentLoad := 1/2, capacity := 150
              canHoldCat := false, maxCatWeight := 149/2 })] := by
  simp only [testCatWeights]
  rw [restingSpots_pb]
  norm_num [List.map_cons, spotLoad_pb, spotCapacity, pb_id, pb_m, pb_w, pb_d,
    materialStrength, listMax, List.foldl]
  try simp
  try norm_num
  try rfl

/-- C3 counterexample: a wood platform whose load-plus-cat hits
capacity/safetyFactor exactly — `canHoldCat` is false (strict `<` fails), yet
no weak point is recorded (the weak-point test uses strict `>`), and the
test still reports `passed = true`; so "a weak point is recorded whenever a
candidate fails" and "passed iff no candidate failed" are both false. -/
theorem testCatWeights_boundary_cx :
    (∃ c, ("p1", c) ∈ (testCatWeights [platBoundary] [149/2]
        (analyzeSupportStructure [platBoundary])).catDistribution ∧
      c.canHoldCat = false) ∧
    (testCatWeights [platBoundary] [149/2]
      (analyzeSupportStructure [platBoundary])).weakPoints = [] ∧
    (testCatWeights [platBoundary] [149/2]
      (analyzeSupportStructure [platBoundary])).passed = true := by
  refine ⟨?_, pb_weakPoints_eval, pb_passed_eval⟩
  rw [pb_catDistribution_eval]
  exact ⟨_, List.mem_singleton.mpr rfl, rfl⟩

theorem c4_weakPoints_eval :
    (testCatWeights [fabSpot, bigBox] [10]
      (analyzeSupportStructure [fabSpot, bigBox])).weakPoints =
    [{ pieceId := "spot", pieceName := "bed", issueCatWeight := 10
       currentCapacity := -1140, required := 10 }] := by
  simp only [testCatWeights]
  rw [restingSpots_c4]
  norm_num [List.filterMap, spotLoad_fs, spotCapacity, fs_id, fs_m, fs_w, fs_d,
    materialStrength, listMax, List.foldl, jsRound]
  try simp
  try norm_num [jsRound]
  try rfl

/-- C4 counterexample: the fabric bedding spot under a 1200 lb box records a
weak point whose `currentCapacity` is −1140 — rounded but not floored at 0,
contradicting "currentCapacity is never negative". -/
theorem weakPoint_currentCapacity_cx :
    ∃ wp ∈ (testCatWeights [fabSpot, bigBox] [10]
        (analyzeSupportStructure [fabSpot, bigBox])).weakPoints,
      wp.currentCapacity < 0 := by
  rw [c4_weakPoints_eval]
  exact ⟨_, List.mem_singleton.mpr rfl, by norm_num⟩

/-- C4 witness: applying the amended weak-point characterization to the
fabric-spot fixture's recorded weak point. -/
theorem weakPoint_currentCapacity_witness :
    ∃ s ∈ restingSpots [fabSpot, bigBox],
      ({ pieceId := "spot", pieceName := "bed", issueCatWeight := 10
         currentCapacity := -1140, required := (10 : ℚ) } : WeakPoint).pieceId = s.id ∧
      ({ pieceId := "spot", pieceName := "bed", issueCatWeight := 10
         currentCapacity := -1140, required := (10 : ℚ) } : WeakPoint).currentCapacity =
        jsRound (spotCapacity s / 2 -
          spotLoad (analyzeSupportStructure [fabSpot, bigBox]) s) ∧
      spotCapacity s / 2 <
        spotLoad (analyzeSupportStructure [fabSpot, bigBox]) s + listMax [10] ∧
      ({ pieceId := "spot", pieceName := "bed", issueCatWeight := 10
         currentCapacity := -1140, required := (10 : ℚ) } : WeakPoint).required =
        listMax [10] :=
  weakPoint_currentCapacity [fabSpot, bigBox] [10]
    (analyzeSupportStructure [fabSpot, bigBox]) (by simp) _
    (by rw [c4_weakPoints_eval]; exact List.mem_singleton.mpr rfl)

end CritterCastle












